import Mathlib

/-!
A verification development for the `cmnd-n-ctrl` agent core (Rust sources under
`core/agent`, `core/actions`, `core/ipc`, `core/storage`).  The Rust data model
and the pure logic of the policy engine, the orchestrator tool loop, the
consent lifecycle and the path-containment gate are embedded shallowly as Lean
definitions, and the specification's claims about them are proved or refuted.

Modelling conventions, used throughout:
* Rust `u64` values (timestamps) are Lean `Nat` with explicit saturation where
  the source uses `saturating_add`.
* `serde_json` string payloads (`arguments_json`, `result_json`) are modelled
  by their parsed JSON trees (`Json` below).  In the source a payload that
  fails to parse is passed through verbatim; such a payload contains no JSON
  keys, so the key-redaction claims are about parsed trees.
* Filesystem side effects are not modelled; the pure path arithmetic of
  `scoped_path` / `normalize_path` and the error results the tools return
  before touching the filesystem are.
-/

/-- Model of a `serde_json::Value`: JSON trees carried in `arguments_json` and
`result_json` payloads.  Numbers are modelled as integers (no claim depends on
float payloads). -/
inductive Json where
  | null : Json
  | bool (b : Bool) : Json
  | num (n : Int) : Json
  | str (s : String) : Json
  | arr (items : List Json) : Json
  | obj (entries : List (String × Json)) : Json

/-- Look up the value stored under key `k` at the top level of a JSON object
(first occurrence), as `serde_json`'s `Value::get` does. -/
def Json.getKey : Json → String → Option Json
  | .obj entries, k => (entries.find? (fun kv => kv.1 == k)).map (fun kv => kv.2)
  | _, _ => none

/- ipc data model (`core/ipc/src/lib.rs`). -/

/-- `ipc::Tool`. -/
structure Tool where
  name : String
  description : String
  input_json_schema : String
deriving DecidableEq, Repr

/-- `ipc::ToolCall`; `arguments_json` is carried as its parsed JSON tree. -/
structure ToolCall where
  name : String
  arguments_json : Json

/-- `ipc::Evidence`. -/
structure Evidence where
  summary : String
  artifacts : List String
deriving DecidableEq, Repr

/-- `ipc::ToolResult`; `result_json` is carried as its parsed JSON tree. -/
structure ToolResult where
  name : String
  result_json : Json
  evidence : Evidence

/-- `ipc::ChatMessage`. -/
structure ChatMessage where
  role : String
  content : String
deriving DecidableEq, Repr

/-- `ipc::ProviderConfig`. -/
structure ProviderConfig where
  provider_name : String
  model : Option String
deriving DecidableEq, Repr

/-- `ipc::ChatMode`. -/
inductive ChatMode where
  | RequireConfirmation
  | BestEffort
deriving DecidableEq, Repr

/-- `ipc::ChatRequest`. -/
structure ChatRequest where
  session_id : Option String
  messages : List ChatMessage
  provider_config : ProviderConfig
  mode : ChatMode
deriving DecidableEq, Repr

/-- `ipc::ActionEvent`. -/
structure ActionEvent where
  tool_name : String
  capability_tier : String
  status : String
  reason : Option String
  arguments_preview : Option String
  evidence_summary : Option String
deriving DecidableEq, Repr

/-- `ipc::ConsentRequest`. -/
structure ConsentRequest where
  scope : String
  human_summary : String
  risk_factors : List String
  requires_extra_confirmation_click : Bool
  expires_at_unix_seconds : Option Nat
  ttl_seconds : Option Nat
deriving DecidableEq, Repr

/-- `ipc::ChatResponse`. -/
structure ChatResponse where
  final_text : String
  audit_id : String
  request_fingerprint : String
  execution_state : String
  consent_token : Option String
  session_id : Option String
  consent_request : Option ConsentRequest
  actions_executed : List String
  proposed_actions : List ActionEvent
  executed_action_events : List ActionEvent
  action_events : List ActionEvent
deriving DecidableEq, Repr

/-- `ipc::PendingConsentRecord`. -/
structure PendingConsentRecord where
  consent_id : String
  session_id : Option String
  requested_at_unix_seconds : Nat
  expires_at_unix_seconds : Nat
  tool_name : String
  capability_tier : String
  status : String
  rationale : String
  arguments_preview : Option String
  request_fingerprint : String
deriving DecidableEq, Repr

/-- `storage::PendingConsentState`: the persisted record together with the
bound deep copy of the originating `ChatRequest`. -/
structure PendingConsentState where
  record : PendingConsentRecord
  chat_request : ChatRequest
deriving DecidableEq, Repr

/- Policy engine (`core/agent/src/policy.rs`). -/

/-- Boolean model of Rust's `str::starts_with`: prefix test on the character
sequence.  (Lean's builtin `String.startsWith` is irreducible inside the
kernel, so the executable character-list prefix test is used instead; the two
agree extensionally.) -/
def strStartsWith (s pre : String) : Bool :=
  pre.toList.isPrefixOf s.toList

/-- `policy::CapabilityTier`. -/
inductive CapabilityTier where
  | ReadOnly
  | LocalActions
  | SystemActions
deriving DecidableEq, Repr

/-- `policy::Authorization`. -/
inductive Authorization where
  | Allow
  | RequireConfirmation (reason : String)
  | Deny (reason : String)
deriving DecidableEq, Repr

/-- `policy::PolicyContext`. -/
structure PolicyContext where
  mode : ChatMode
  user_confirmed : Bool
deriving DecidableEq, Repr

/-- `policy::Policy`. -/
structure Policy where
  default_require_confirmation : Bool
deriving DecidableEq, Repr

/-- `impl Default for Policy`. -/
def Policy.default : Policy :=
  { default_require_confirmation := false }

/-- `Policy::capability_tier`: the ordered first-match classification of a
tool call's name. -/
def Policy.capability_tier (_ : Policy) (tool_call : ToolCall) : CapabilityTier :=
  if tool_call.name = "desktop.app.activate" then
    .SystemActions
  else if tool_call.name = "desktop.app.list" then
    .LocalActions
  else if tool_call.name = "file.write_text" ∨ tool_call.name = "file.append_text" ∨
      tool_call.name = "file.mkdir" then
    .LocalActions
  else if strStartsWith tool_call.name "time." ∨ strStartsWith tool_call.name "math." ∨
      strStartsWith tool_call.name "text." ∨ strStartsWith tool_call.name "file." ∨
      tool_call.name = "echo" then
    .ReadOnly
  else if strStartsWith tool_call.name "desktop." ∨ strStartsWith tool_call.name "android." ∨
      strStartsWith tool_call.name "ios." then
    .LocalActions
  else
    .SystemActions

/-- `Policy::authorize`. -/
def Policy.authorize (policy : Policy) (tool_call : ToolCall) (context : PolicyContext) :
    Authorization :=
  if strStartsWith tool_call.name "internal." then
    .Deny "internal.* tools are reserved"
  else
    let require_confirmation :=
      match policy.capability_tier tool_call with
      | .ReadOnly =>
        policy.default_require_confirmation || context.mode = ChatMode.RequireConfirmation
      | .LocalActions => true
      | .SystemActions => true
    if require_confirmation && !context.user_confirmed then
      .RequireConfirmation ("Tool \x27" ++ tool_call.name ++ "\x27 requires explicit user consent")
    else
      .Allow

/- Tool registry (`core/agent/src/tool_registry.rs`). -/

/-- `tool_registry::ToolRegistry`. -/
structure ToolRegistry where
  tools : List Tool
deriving DecidableEq, Repr

/-- `ToolRegistry::from_tools`. -/
def ToolRegistry.from_tools (tools : List Tool) : ToolRegistry :=
  { tools := tools }

/-- `ToolRegistry::list`. -/
def ToolRegistry.list (registry : ToolRegistry) : List Tool :=
  registry.tools

/-- `ToolRegistry::has_tool`. -/
def ToolRegistry.has_tool (registry : ToolRegistry) (name : String) : Bool :=
  registry.tools.any (fun t => t.name == name)

/- Orchestrator helpers (`core/agent/src/orchestrator.rs`). -/

/-- `orchestrator::capability_tier_label`. -/
def capability_tier_label (tier : CapabilityTier) : String :=
  match tier with
  | .ReadOnly => "ReadOnly"
  | .LocalActions => "LocalActions"
  | .SystemActions => "SystemActions"

/-- ASCII lowercasing, as `str::to_ascii_lowercase` (only the 26 ASCII capital
letters are mapped). -/
def toAsciiLowercase (s : String) : String :=
  String.mk (s.toList.map (fun c =>
    if 'A' ≤ c ∧ c ≤ 'Z' then Char.ofNat (c.toNat + 32) else c))

/-- `orchestrator::is_sensitive_key`. -/
def is_sensitive_key (key : String) : Bool :=
  let k := toAsciiLowercase key
  k == "api_key" || k == "apikey" || k == "token" || k == "authorization" ||
    k == "password" || k == "secret" || k == "content"

mutual

/-- `orchestrator::redact_sensitive_json`: replace the value under every
sensitive key by `"[REDACTED]"`, recursing into non-sensitive values. -/
def redact_sensitive_json : Json → Json
  | .obj entries => .obj (redactObjEntries entries)
  | .arr items => .arr (redactArrItems items)
  | v => v

/-- The object half of `redact_sensitive_json`'s `iter_mut` loop. -/
def redactObjEntries : List (String × Json) → List (String × Json)
  | [] => []
  | (k, v) :: rest =>
    (k, if is_sensitive_key k then Json.str "[REDACTED]" else redact_sensitive_json v) ::
      redactObjEntries rest

/-- The array half of `redact_sensitive_json`'s loop. -/
def redactArrItems : List Json → List Json
  | [] => []
  | v :: rest => redact_sensitive_json v :: redactArrItems rest

end

mutual

/-- `serde_json::to_string` on the JSON model (compact rendering; string
escaping is not modelled, no claim depends on it). -/
def serializeJson : Json → String
  | .null => "null"
  | .bool true => "true"
  | .bool false => "false"
  | .num n => toString n
  | .str s => "\"" ++ s ++ "\""
  | .arr items => "[" ++ serializeArrItems items ++ "]"
  | .obj entries => "\x7b" ++ serializeObjEntries entries ++ "\x7d"

/-- Comma-separated rendering of array elements. -/
def serializeArrItems : List Json → String
  | [] => ""
  | [x] => serializeJson x
  | x :: xs => serializeJson x ++ "," ++ serializeArrItems xs

/-- Comma-separated rendering of object entries. -/
def serializeObjEntries : List (String × Json) → String
  | [] => ""
  | [(k, v)] => "\"" ++ k ++ "\":" ++ serializeJson v
  | (k, v) :: xs => "\"" ++ k ++ "\":" ++ serializeJson v ++ "," ++ serializeObjEntries xs

end

/-- `orchestrator::sanitize_arguments_preview` on a parsed payload: redact,
then re-serialize.  (The source's parse step is represented by taking the
parsed tree as input; an unparseable payload is returned verbatim there.) -/
def sanitize_arguments_preview (arguments_json : Json) : String :=
  serializeJson (redact_sensitive_json arguments_json)

/-- `orchestrator::arguments_preview`: sanitize, collapse newlines, keep the
first 180 characters and append `"..."` when anything was cut off. -/
def arguments_preview (arguments_json : Json) : String :=
  let sanitized := sanitize_arguments_preview arguments_json
  let compact := (sanitized.replace "\n" " ").replace "\r" " "
  let cs := compact.toList
  let preview := String.mk (cs.take 180)
  if 180 < cs.length then preview ++ "..." else preview

/- Request fingerprint (`orchestrator::request_fingerprint`). -/

/-- Modelled from the spec: the hasher behind `request_fingerprint` is Rust's
`std::collections::hash_map::DefaultHasher` (SipHash-1-3), standard-library
internals that are not part of this repository.  The spec only requires "a
stable 64-bit hash"; it is modelled as an FNV-1a-style 64-bit accumulator over
the fed bytes.  Every property proved below depends only on which fields are
fed to the hasher and on the rendering, not on the mixing function. -/
def hashWriteByte (h : Nat) (b : Nat) : Nat :=
  ((h ^^^ b) * 1099511628211) % 2 ^ 64

/-- Feed a string to the hasher: its UTF-8 bytes followed by the `0xff`
terminator Rust's `str::hash` appends. -/
def hashWriteStr (h : Nat) (s : String) : Nat :=
  (s.toUTF8.toList.foldl (fun acc b => hashWriteByte acc b.toNat) h) |> (hashWriteByte · 255)

/-- Feed an `Option<String>` to the hasher: the derived `Hash` writes the
variant discriminant, then the payload. -/
def hashWriteOptStr (h : Nat) (o : Option String) : Nat :=
  match o with
  | none => hashWriteByte h 0
  | some s => hashWriteStr (hashWriteByte h 1) s

/-- The mode tag string hashed by `request_fingerprint`. -/
def chatModeTag (mode : ChatMode) : String :=
  match mode with
  | .RequireConfirmation => "RequireConfirmation"
  | .BestEffort => "BestEffort"

/-- One lowercase hexadecimal digit. -/
def hexDigitChar (n : Nat) : Char :=
  if n < 10 then Char.ofNat (48 + n) else Char.ofNat (97 + (n - 10))

/-- The sixteen-hex-digit zero-padded rendering `format!("req-\x7b:016x\x7d", h)`
uses (for `h < 2^64` this is exact). -/
def toHex16 (h : Nat) : List Char :=
  (List.range 16).map (fun i => hexDigitChar (h / 16 ^ (15 - i) % 16))

/-- `orchestrator::request_fingerprint`: hash provider name, model, mode tag
and each message's role and content, then render as `req-<16 hex digits>`. -/
def request_fingerprint (messages : List ChatMessage) (provider_config : ProviderConfig)
    (mode : ChatMode) : String :=
  let h := 14695981039346656037
  let h := hashWriteStr h provider_config.provider_name
  let h := hashWriteOptStr h provider_config.model
  let h := hashWriteStr h (chatModeTag mode)
  let h := messages.foldl (fun acc m => hashWriteStr (hashWriteStr acc m.role) m.content) h
  "req-" ++ String.mk (toHex16 h)

/- Orchestrator loop (`core/agent/src/orchestrator.rs`). -/

/-- `providers::provider_trait::ProviderReply`. -/
inductive ProviderReply where
  | FinalText (text : String)
  | ToolCalls (calls : List ToolCall)

/-- The `Provider::chat` capability: conversation, tool descriptors, prior
tool results and config in; a reply out. -/
def ProviderFn : Type :=
  List ChatMessage → List Tool → List ToolResult → ProviderConfig → ProviderReply

/-- The `ActionBackend::execute_tool` capability. -/
def BackendFn : Type :=
  ToolCall → ToolResult

/-- `orchestrator::PolicyDecisionRecord`. -/
structure PolicyDecisionRecord where
  tool_name : String
  capability_tier : CapabilityTier
  decision : String
  reason : Option String
deriving DecidableEq, Repr

/-- `orchestrator::AuditEvent`. -/
structure AuditEvent where
  audit_id : String
  timestamp_unix_seconds : Nat
  provider : String
  tool_calls_requested : List String
  tool_calls_executed : List String
  evidence_summaries : List String
  policy_decisions : List PolicyDecisionRecord
deriving DecidableEq, Repr

/-- The mutable accumulators of `run_with_confirmation`'s loop. -/
structure LoopState where
  executed_actions : List String
  proposed_actions : List ActionEvent
  executed_action_events : List ActionEvent
  tool_results : List ToolResult
  requested_tool_calls : List String
  policy_decisions : List PolicyDecisionRecord

/-- The empty accumulators the run starts from. -/
def LoopState.initial : LoopState :=
  { executed_actions := [], proposed_actions := [], executed_action_events := [],
    tool_results := [], requested_tool_calls := [], policy_decisions := [] }

/-- `Orchestrator::MAX_TOOL_ROUNDS`. -/
def MAX_TOOL_ROUNDS : Nat := 4

/-- The body of `for call in calls` in `run_with_confirmation`: record the
request, deny unknown tools without executing them, and otherwise act on the
policy decision.  The boolean accumulator is the round's
`pending_confirmation` flag. -/
def process_tool_call (policy : Policy) (registry : ToolRegistry) (backend : BackendFn)
    (mode : ChatMode) (user_confirmed : Bool) (acc : LoopState × Bool) (call : ToolCall) :
    LoopState × Bool :=
  let st := acc.1
  let pending_confirmation := acc.2
  let st := { st with requested_tool_calls := st.requested_tool_calls ++ [call.name] }
  if !registry.has_tool call.name then
    ({ st with
        executed_actions := st.executed_actions ++ ["denied:" ++ call.name ++ ":unknown_tool"],
        proposed_actions := st.proposed_actions ++
          [{ tool_name := call.name,
             capability_tier := capability_tier_label .SystemActions,
             status := "denied", reason := some "unknown_tool",
             arguments_preview := some (arguments_preview call.arguments_json),
             evidence_summary := none }],
        policy_decisions := st.policy_decisions ++
          [{ tool_name := call.name, capability_tier := .SystemActions,
             decision := "deny", reason := some "unknown_tool" }] },
     pending_confirmation)
  else
    let tier := policy.capability_tier call
    match policy.authorize call { mode := mode, user_confirmed := user_confirmed } with
    | .Allow =>
      let result := backend call
      ({ st with
          proposed_actions := st.proposed_actions ++
            [{ tool_name := call.name, capability_tier := capability_tier_label tier,
               status := "approved", reason := none,
               arguments_preview := some (arguments_preview call.arguments_json),
               evidence_summary := none }],
          executed_actions := st.executed_actions ++ [call.name],
          executed_action_events := st.executed_action_events ++
            [{ tool_name := call.name, capability_tier := capability_tier_label tier,
               status := "executed", reason := none,
               arguments_preview := some (arguments_preview call.arguments_json),
               evidence_summary := some result.evidence.summary }],
          policy_decisions := st.policy_decisions ++
            [{ tool_name := call.name, capability_tier := tier,
               decision := "allow", reason := none }],
          tool_results := st.tool_results ++ [result] },
       pending_confirmation)
    | .RequireConfirmation reason =>
      ({ st with
          proposed_actions := st.proposed_actions ++
            [{ tool_name := call.name, capability_tier := capability_tier_label tier,
               status := "consent_required", reason := some reason,
               arguments_preview := some (arguments_preview call.arguments_json),
               evidence_summary := none }],
          policy_decisions := st.policy_decisions ++
            [{ tool_name := call.name, capability_tier := tier,
               decision := "require_confirmation", reason := some reason }],
          executed_actions := st.executed_actions ++
            ["confirm_required:" ++ call.name ++ ":" ++ reason] },
       true)
    | .Deny reason =>
      ({ st with
          proposed_actions := st.proposed_actions ++
            [{ tool_name := call.name, capability_tier := capability_tier_label tier,
               status := "denied", reason := some reason,
               arguments_preview := some (arguments_preview call.arguments_json),
               evidence_summary := none }],
          policy_decisions := st.policy_decisions ++
            [{ tool_name := call.name, capability_tier := tier,
               decision := "deny", reason := some reason }],
          executed_actions := st.executed_actions ++
            ["denied:" ++ call.name ++ ":" ++ reason] },
       pending_confirmation)

/-- The bounded provider loop of `run_with_confirmation`.  The source keeps a
single counter `tool_rounds` and breaks once `tool_rounds > MAX_TOOL_ROUNDS`
after the increment; the structural recursion handle `rounds_left` is exactly
`MAX_TOOL_ROUNDS - tool_rounds`, so `rounds_left = 0` on a `ToolCalls` reply is
the source's `tool_rounds + 1 > MAX_TOOL_ROUNDS`.  Returns the final text, the
final value of `tool_rounds`, and the accumulators. -/
def run_loop (provider : ProviderFn) (backend : BackendFn) (policy : Policy)
    (registry : ToolRegistry) (messages : List ChatMessage) (tools : List Tool)
    (provider_config : ProviderConfig) (mode : ChatMode) (user_confirmed : Bool) :
    Nat → ProviderReply → Nat → LoopState → String × Nat × LoopState
  | _, .FinalText text, tool_rounds, st => (text, tool_rounds, st)
  | 0, .ToolCalls _, tool_rounds, st =>
    ("Provider requested more than " ++ toString MAX_TOOL_ROUNDS ++
       " tool rounds; stopping for safety.",
     tool_rounds + 1, st)
  | rounds_left + 1, .ToolCalls calls, tool_rounds, st =>
    let tool_rounds := tool_rounds + 1
    let tool_results_before := st.tool_results.length
    let stepped := calls.foldl (process_tool_call policy registry backend mode user_confirmed)
      (st, false)
    if stepped.2 && (stepped.1.tool_results.length == tool_results_before) then
      ("Confirmation required before executing requested tools.", tool_rounds, stepped.1)
    else
      run_loop provider backend policy registry messages tools provider_config mode
        user_confirmed rounds_left
        (provider messages tools stepped.1.tool_results provider_config) tool_rounds stepped.1

/-- Zero-padded six-digit rendering used by the `audit-`, `consent-`, `sess-`
and `mcp-` counters (`format!("\x7b:06\x7d", n)`). -/
def padSixDigits (n : Nat) : String :=
  let s := toString n
  let pad := 6 - s.length
  String.mk (List.replicate pad '0') ++ s

/-- `Orchestrator::next_audit_id` applied to the current counter value. -/
def next_audit_id (audit_counter : Nat) : String :=
  "audit-" ++ padSixDigits (audit_counter + 1)

/-- `AgentService::next_synthetic_audit_id` applied to the current counter. -/
def next_synthetic_audit_id (synthetic_audit_counter : Nat) : String :=
  "audit-" ++ padSixDigits (synthetic_audit_counter + 1)

/-- `AgentService::next_consent_id` applied to the current counter. -/
def next_consent_id (consent_counter : Nat) : String :=
  "consent-" ++ padSixDigits (consent_counter + 1)

/-- The outcome of one orchestrator run: the `ChatResponse`, the audit event
pushed onto the orchestrator's log, and the final `tool_rounds` counter
(surfaced by the model so the loop bound can be stated). -/
structure RunOutcome where
  response : ChatResponse
  audit : AuditEvent
  tool_rounds : Nat

/-- `Orchestrator::run_with_confirmation`.  The orchestrator's mutable clock
and audit counter enter as the `timestamp_unix_seconds` / `audit_counter`
arguments.  The ipc `ChatResponse` carries an `execution_state` field that the
orchestrator never sets (the service overwrites it on every path); it starts
empty here. -/
def run_with_confirmation (provider : ProviderFn) (backend : BackendFn) (policy : Policy)
    (registry : ToolRegistry) (audit_counter : Nat) (timestamp_unix_seconds : Nat)
    (messages : List ChatMessage) (provider_config : ProviderConfig) (mode : ChatMode)
    (user_confirmed : Bool) : RunOutcome :=
  let audit_id := next_audit_id audit_counter
  let fingerprint := request_fingerprint messages provider_config mode
  let tools := registry.list
  let result := run_loop provider backend policy registry messages tools provider_config mode
    user_confirmed MAX_TOOL_ROUNDS (provider messages tools [] provider_config) 0
    LoopState.initial
  let final_text := result.1
  let tool_rounds := result.2.1
  let st := result.2.2
  { response :=
      { final_text := final_text,
        audit_id := audit_id,
        request_fingerprint := fingerprint,
        execution_state := "",
        consent_token := none,
        session_id := none,
        consent_request := none,
        actions_executed := st.executed_actions,
        proposed_actions := st.proposed_actions,
        executed_action_events := st.executed_action_events,
        action_events := st.proposed_actions ++ st.executed_action_events },
    audit :=
      { audit_id := audit_id,
        timestamp_unix_seconds := timestamp_unix_seconds,
        provider := provider_config.provider_name,
        tool_calls_requested := st.requested_tool_calls,
        tool_calls_executed := st.executed_actions,
        evidence_summaries := st.tool_results.map (fun r => r.evidence.summary),
        policy_decisions := st.policy_decisions },
    tool_rounds := tool_rounds }

/-- `Orchestrator::run`: `run_with_confirmation` with `user_confirmed = false`. -/
def orchestrator_run (provider : ProviderFn) (backend : BackendFn) (policy : Policy)
    (registry : ToolRegistry) (audit_counter : Nat) (timestamp_unix_seconds : Nat)
    (messages : List ChatMessage) (provider_config : ProviderConfig) (mode : ChatMode) :
    RunOutcome :=
  run_with_confirmation provider backend policy registry audit_counter timestamp_unix_seconds
    messages provider_config mode false

/- Consent lifecycle (`core/agent/src/lib.rs`, `AgentService`). -/

/-- `u64::MAX`. -/
def U64_MAX : Nat := 2 ^ 64 - 1

/-- `u64::saturating_add`. -/
def u64_saturating_add (a b : Nat) : Nat :=
  min (a + b) U64_MAX

/-- `AgentService::CONSENT_TTL_SECS`. -/
def CONSENT_TTL_SECS : Nat := 300

/-- `AgentService::mark_or_find_pending_consent`, as a pure transition on the
persisted `pending_consents` collection.  The source looks up the first item
whose `consent_id` matches and reads and writes at that index; the recursion
below updates exactly that first match.  Returns what the method returns
(`Ok(marked item)` or the error string) paired with the collection as left on
disk: unchanged for `consent_not_found` / `consent_not_pending`, the record
marked `expired` for `consent_expired`, the record marked `new_status` on
success. -/
def mark_or_find_pending_consent (consent_id new_status : String) (now : Nat) :
    List PendingConsentState → Except String PendingConsentState × List PendingConsentState
  | [] => (.error "consent_not_found", [])
  | item :: rest =>
    if item.record.consent_id == consent_id then
      if item.record.status ≠ "pending" then
        (.error ("consent_not_pending:" ++ item.record.status), item :: rest)
      else if 0 < item.record.expires_at_unix_seconds ∧
          item.record.expires_at_unix_seconds < now then
        (.error "consent_expired",
         { item with record := { item.record with status := "expired" } } :: rest)
      else
        let marked := { item with record := { item.record with status := new_status } }
        (.ok marked, marked :: rest)
    else
      let stepped := mark_or_find_pending_consent consent_id new_status now rest
      (stepped.1, item :: stepped.2)

/-- `lib::build_consent_request`. -/
def build_consent_request (proposed_actions : List ActionEvent)
    (expires_at_unix_seconds : Option Nat) (ttl_seconds : Option Nat) : ConsentRequest :=
  let pending := proposed_actions.filter (fun evt => evt.status == "consent_required")
  let requires_extra_confirmation_click := pending.any (fun evt =>
    evt.capability_tier == "LocalActions" || evt.capability_tier == "SystemActions")
  let risk_factors :=
    (if pending.any (fun evt => evt.capability_tier == "LocalActions") then
      ["local_device_action"] else []) ++
    (if pending.any (fun evt => evt.capability_tier == "SystemActions") then
      ["system_level_action"] else []) ++
    (if 1 < pending.length then ["multiple_actions_requested"] else []) ++
    (if pending.any (fun evt => (evt.arguments_preview.map (fun s => !s.isEmpty)).getD false)
      then ["external_arguments_present"] else [])
  let human_summary :=
    if pending.isEmpty then
      "No consent-required actions pending."
    else if pending.length = 1 then
      "Approve execution of \x27" ++ ((pending.head?.map (fun e => e.tool_name)).getD "") ++
        "\x27 once for this exact request."
    else
      "Approve execution of " ++ toString pending.length ++ " actions once for this exact request."
  { scope := "once_exact_request",
    human_summary := human_summary,
    risk_factors := risk_factors,
    requires_extra_confirmation_click := requires_extra_confirmation_click,
    expires_at_unix_seconds := expires_at_unix_seconds,
    ttl_seconds := ttl_seconds }

/-- `AgentService::attach_or_create_consent`: if the run proposed any
`consent_required` action, mint a consent id, persist a `PendingConsentState`
whose `chat_request` is a deep copy of the original request (`request.clone()`,
which is plain value equality in the pure model), and attach the token and the
synthesized `ConsentRequest` to the response.  Returns the updated response and
the updated `pending_consents` collection. -/
def attach_or_create_consent (request : ChatRequest) (response : ChatResponse)
    (items : List PendingConsentState) (now : Nat) (consent_counter : Nat) :
    ChatResponse × List PendingConsentState :=
  let pending_events := response.proposed_actions.filter (fun evt =>
    evt.status == "consent_required")
  match pending_events with
  | [] => ({ response with consent_token := none, consent_request := none }, items)
  | first :: _ =>
    let timestamp := now
    let expires_at := u64_saturating_add timestamp CONSENT_TTL_SECS
    let consent_id := next_consent_id consent_counter
    let new_items := items ++
      [{ record :=
          { consent_id := consent_id,
            session_id := request.session_id,
            requested_at_unix_seconds := timestamp,
            expires_at_unix_seconds := expires_at,
            tool_name := first.tool_name,
            capability_tier := first.capability_tier,
            status := "pending",
            rationale := first.reason.getD "explicit consent required",
            arguments_preview := first.arguments_preview,
            request_fingerprint := response.request_fingerprint },
         chat_request := request }]
    ({ response with
        consent_token := some consent_id,
        consent_request := some (build_consent_request response.proposed_actions
          (some expires_at) (some CONSENT_TTL_SECS)) },
     new_items)

/-- `AgentService::chat_request` (the consent-relevant core: orchestrator run,
audit id and session id stamping, consent attach, execution-state selection;
session persistence and audit persistence are storage side effects outside the
consent store modelled here). -/
def chat_request (provider : ProviderFn) (backend : BackendFn) (policy : Policy)
    (registry : ToolRegistry) (params : ChatRequest) (items : List PendingConsentState)
    (now : Nat) (audit_counter synthetic_audit_counter consent_counter : Nat) :
    ChatResponse × List PendingConsentState :=
  let outcome := run_with_confirmation provider backend policy registry audit_counter now
    params.messages params.provider_config params.mode false
  let response := { outcome.response with
    audit_id := next_synthetic_audit_id synthetic_audit_counter,
    session_id := params.session_id }
  let attached := attach_or_create_consent params response items now consent_counter
  let response := { attached.1 with
    execution_state := if attached.1.consent_token.isSome then "awaiting_consent"
      else "completed" }
  (response, attached.2)

/-- `AgentService::chat_approve`: resolve the pending record to `approved`,
then replay the orchestrator against the bound request with
`user_confirmed = true` and stamp the response.  Errors from the resolution are
propagated; the collection returned is what was left on disk in either case. -/
def chat_approve (provider : ProviderFn) (backend : BackendFn) (policy : Policy)
    (registry : ToolRegistry) (items : List PendingConsentState) (consent_token : String)
    (now : Nat) (audit_counter synthetic_audit_counter : Nat) :
    Except String ChatResponse × List PendingConsentState :=
  let resolved := mark_or_find_pending_consent consent_token "approved" now items
  match resolved.1 with
  | .error e => (.error e, resolved.2)
  | .ok pending =>
    let req := pending.chat_request
    let outcome := run_with_confirmation provider backend policy registry audit_counter now
      req.messages req.provider_config req.mode true
    let response := { outcome.response with
      audit_id := next_synthetic_audit_id synthetic_audit_counter,
      session_id := pending.record.session_id,
      execution_state := "completed",
      consent_token := none,
      consent_request := none }
    (.ok response, resolved.2)

/-- `AgentService::response_for_denial`. -/
def response_for_denial (pending : PendingConsentState) (synthetic_audit_counter : Nat) :
    ChatResponse :=
  let event : ActionEvent :=
    { tool_name := pending.record.tool_name,
      capability_tier := pending.record.capability_tier,
      status := "denied",
      reason := some pending.record.rationale,
      arguments_preview := pending.record.arguments_preview,
      evidence_summary := none }
  { final_text := "User denied consent for requested actions.",
    audit_id := next_synthetic_audit_id synthetic_audit_counter,
    request_fingerprint := pending.record.request_fingerprint,
    execution_state := "denied",
    consent_token := none,
    session_id := pending.record.session_id,
    consent_request := none,
    actions_executed :=
      ["denied:" ++ pending.record.tool_name ++ ":" ++ pending.record.rationale],
    proposed_actions := [event],
    executed_action_events := [],
    action_events := [event] }

/-- `AgentService::chat_deny`: resolve the pending record to `denied` and
synthesize the denial response. -/
def chat_deny (items : List PendingConsentState) (consent_token : String) (now : Nat)
    (synthetic_audit_counter : Nat) :
    Except String ChatResponse × List PendingConsentState :=
  let resolved := mark_or_find_pending_consent consent_token "denied" now items
  match resolved.1 with
  | .error e => (.error e, resolved.2)
  | .ok pending => (.ok (response_for_denial pending synthetic_audit_counter), resolved.2)

/-- `AgentService::consent_list`: view every persisted record, lazily showing a
pending record past its expiry as `expired`, filter by the optional status and
session id, and sort by request time descending (stable ascending sort, then
reverse, as `sort_by_key` + `reverse`). -/
def consent_list (status_filter session_filter : Option String) (now : Nat)
    (items : List PendingConsentState) : List PendingConsentRecord :=
  let viewed := items.map (fun x =>
    if x.record.status == "pending" ∧ 0 < x.record.expires_at_unix_seconds ∧
        x.record.expires_at_unix_seconds < now then
      { x.record with status := "expired" }
    else
      x.record)
  let filtered := match status_filter with
    | some s => viewed.filter (fun (c : PendingConsentRecord) => c.status == s)
    | none => viewed
  let filtered := match session_filter with
    | some sid => filtered.filter (fun (c : PendingConsentRecord) => c.session_id == some sid)
    | none => filtered
  (filtered.mergeSort (fun a b =>
    a.requested_at_unix_seconds ≤ b.requested_at_unix_seconds)).reverse

/- Path containment (`core/actions/src/traits.rs`). -/

/-- A component of a `std::path::Path`, as produced by `Path::components()`
(Unix flavor: no prefix component). -/
inductive Component where
  | rootDir
  | curDir
  | parentDir
  | normal (name : String)
deriving DecidableEq, Repr

/-- A path, as its component list. -/
abbrev RustPath : Type := List Component

/-- `Path::is_absolute` (Unix): the path begins with the root directory. -/
def pathIsAbsolute (p : RustPath) : Bool :=
  match p with
  | Component.rootDir :: _ => true
  | _ => false

/-- `PathBuf::pop`: drop the last component; does nothing when the path is
empty or consists of the root alone (its `parent()` is `None`). -/
def pathPop (out : RustPath) : RustPath :=
  match out with
  | [] => []
  | [Component.rootDir] => [Component.rootDir]
  | other => other.dropLast

/-- `traits::normalize_path`: resolve `.` and `..` components textually,
without touching symlinks (`.` is skipped, `..` pops the output, everything
else is pushed). -/
def normalize_path (path : RustPath) : RustPath :=
  path.foldl (fun out comp =>
    match comp with
    | Component.curDir => out
    | Component.parentDir => pathPop out
    | other => out ++ [other]) []

/-- Cosmetic display of a path (the model's `Path::display`), used only inside
evidence strings. -/
def pathDisplay (p : RustPath) : String :=
  String.intercalate "/" (p.map (fun c =>
    match c with
    | Component.rootDir => ""
    | Component.curDir => "."
    | Component.parentDir => ".."
    | Component.normal name => name))

/-- `StubActionBackend::project_root_display`. -/
def project_root_display (project_root : Option RustPath) : String :=
  match project_root with
  | some p => pathDisplay p
  | none => "."

/-- `StubActionBackend::scoped_path`: resolve the requested path against the
project root (falling back to the current working directory), normalize, and
require the result to start with the normalized root.  The requested argument
is modelled post-parse; `none` covers the source's missing/empty/"." fallback
to `Path::new(".")`. -/
def scoped_path (project_root : Option RustPath) (current_dir : RustPath)
    (requested : Option RustPath) : Except String RustPath :=
  let root := project_root.getD current_dir
  let requested_path := requested.getD [Component.curDir]
  let candidate := if pathIsAbsolute requested_path then requested_path
    else root ++ requested_path
  let normalized := normalize_path candidate
  let normalized_root := normalize_path root
  if normalized_root.isPrefixOf normalized then
    .ok normalized
  else
    .error "path_outside_project_scope"

/-- `traits::tool_error`: the error `ToolResult` every filesystem tool returns
when a step fails; `result_json` carries `status = "error"` and the error
code. -/
def tool_error (tool_name platform : String) (code : String) (op : String)
    (artifact : String) : ToolResult :=
  { name := tool_name,
    result_json := Json.obj
      [("status", Json.str "error"), ("platform", Json.str platform),
       ("error", Json.str code)],
    evidence :=
      { summary := op ++ " failed on " ++ platform ++ ": " ++ code,
        artifacts := [artifact] } }

/-- The common gate every `file.*` arm of `StubActionBackend::execute_tool`
follows: resolve through `scoped_path` first and return `tool_error` on
failure, before any filesystem call; only a successfully scoped path is handed
to the filesystem operation (`proceed`). -/
def file_tool_gate (project_root : Option RustPath) (current_dir : RustPath)
    (tool_name platform : String) (requested : Option RustPath)
    (proceed : RustPath → ToolResult) : ToolResult :=
  match scoped_path project_root current_dir requested with
  | .error err => tool_error tool_name platform err tool_name
      (project_root_display project_root)
  | .ok p => proceed p

/- Helper definitions used by the claim statements. -/

/-- The §4.1 capability-tier table exactly as the specification words it, for
comparison with the source's `Policy::capability_tier` (ordered first-match
over the name). -/
def spec_capability_tier (name : String) : CapabilityTier :=
  if name = "desktop.app.activate" then .SystemActions
  else if name = "desktop.app.list" then .LocalActions
  else if name = "file.write_text" ∨ name = "file.append_text" ∨ name = "file.mkdir" then
    .LocalActions
  else if strStartsWith name "time." ∨ strStartsWith name "math." ∨ strStartsWith name "text." ∨
      strStartsWith name "file." ∨ name = "echo" then
    .ReadOnly
  else if strStartsWith name "desktop." ∨ strStartsWith name "android." ∨ strStartsWith name "ios." then
    .LocalActions
  else .SystemActions

/-- Update the first list element satisfying the predicate (how the source's
index-based write into the consents collection acts on the list). -/
def updateFirst (p : PendingConsentState → Bool) (f : PendingConsentState → PendingConsentState) :
    List PendingConsentState → List PendingConsentState
  | [] => []
  | x :: xs => if p x then f x :: xs else x :: updateFirst p f xs

/-- The first persisted consent with the given id (the record the source's
`position`-based lookup reads). -/
def findConsent (items : List PendingConsentState) (consent_id : String) :
    Option PendingConsentState :=
  items.find? (fun item => item.record.consent_id == consent_id)

/-- The status under which a consent id is currently stored. -/
def consentStatus (items : List PendingConsentState) (consent_id : String) : Option String :=
  (findConsent items consent_id).map (fun item => item.record.status)

/-- Set a consent record's status. -/
def setConsentStatus (status : String) (item : PendingConsentState) : PendingConsentState :=
  { item with record := { item.record with status := status } }

/-- Any later operation on the persisted consents collection: a resolution
attempt (`chat_approve` / `chat_deny` / lazy expiry all go through
`mark_or_find_pending_consent`) or the creation of a new pending consent
(`attach_or_create_consent` appends). -/
inductive ConsentOp where
  | resolve (consent_id new_status : String) (now : Nat)
  | create (item : PendingConsentState)

/-- Apply one operation to the collection, keeping the on-disk result. -/
def applyConsentOp (items : List PendingConsentState) (op : ConsentOp) :
    List PendingConsentState :=
  match op with
  | .resolve consent_id new_status now =>
    (mark_or_find_pending_consent consent_id new_status now items).2
  | .create item => items ++ [item]

/-- Apply a sequence of later operations. -/
def applyConsentOps (items : List PendingConsentState) (ops : List ConsentOp) :
    List PendingConsentState :=
  ops.foldl applyConsentOp items

/-- A JSON path step: descend into an object field or an array element. -/
inductive JsonPathStep where
  | field (k : String)
  | index (i : Nat)

/-- Rewrite the value reached by a path, leaving everything else unchanged (a
no-op when the path does not exist).  Used to state that changing only what is
stored under a sensitive key cannot change an emitted preview. -/
def updateAtPath : List JsonPathStep → (Json → Json) → Json → Json
  | [], f, v => f v
  | .field k :: rest, f, .obj entries =>
    .obj (entries.map (fun kv => if kv.1 == k then (kv.1, updateAtPath rest f kv.2) else kv))
  | .index i :: rest, f, .arr items =>
    .arr (items.enum.map (fun p => if p.1 == i then updateAtPath rest f p.2 else p.2))
  | _ :: _, _, v => v

/- Lemmas about path normalization and the containment gate. -/

/-- `normalize_path` over a concatenation continues from the prefix's result. -/
lemma normalize_path_append (p q : RustPath) :
    normalize_path (p ++ q) =
      q.foldl (fun out comp =>
        match comp with
        | Component.curDir => out
        | Component.parentDir => pathPop out
        | other => out ++ [other]) (normalize_path p) := by
  simp [normalize_path, List.foldl_append]

/-- A trailing `.` is dropped by normalization. -/
lemma normalize_path_curDir (p : RustPath) :
    normalize_path (p ++ [Component.curDir]) = normalize_path p := by
  simp [normalize_path_append]

/-- A trailing `..` pops the normalized prefix. -/
lemma normalize_path_parentDir (p : RustPath) :
    normalize_path (p ++ [Component.parentDir]) = pathPop (normalize_path p) := by
  simp [normalize_path_append]

/-- A trailing normal component is pushed onto the normalized prefix. -/
lemma normalize_path_normal (p : RustPath) (s : String) :
    normalize_path (p ++ [Component.normal s]) = normalize_path p ++ [Component.normal s] := by
  simp [normalize_path_append]

/-- `scoped_path` unfolded: the containment check over the normalized
candidate and root. -/
lemma scoped_path_spec (project_root : Option RustPath) (current_dir : RustPath)
    (requested : Option RustPath) :
    scoped_path project_root current_dir requested =
      if (normalize_path (project_root.getD current_dir)).isPrefixOf
          (normalize_path (if pathIsAbsolute (requested.getD [Component.curDir]) then
            requested.getD [Component.curDir]
          else project_root.getD current_dir ++ requested.getD [Component.curDir])) then
        Except.ok (normalize_path (if pathIsAbsolute (requested.getD [Component.curDir]) then
            requested.getD [Component.curDir]
          else project_root.getD current_dir ++ requested.getD [Component.curDir]))
      else Except.error "path_outside_project_scope" := rfl

/-- C7.  Path containment: every filesystem tool resolves the requested path
against the active project root (falling back to the current working
directory), normalizes `.` and `..` purely textually (no symlink resolution),
and proceeds only if the normalized result starts with the normalized project
root; otherwise no filesystem operation runs and the returned `ToolResult`'s
`result_json` has `status = "error"` with error code
`path_outside_project_scope`. -/
theorem path_containment (project_root : Option RustPath) (current_dir : RustPath)
    (requested : Option RustPath) :
    (∀ p, scoped_path project_root current_dir requested = .ok p →
      (normalize_path (project_root.getD current_dir)).isPrefixOf p = true ∧
      p = normalize_path
        (if pathIsAbsolute (requested.getD [Component.curDir]) then
          requested.getD [Component.curDir]
        else project_root.getD current_dir ++ requested.getD [Component.curDir])) ∧
    (∀ e, scoped_path project_root current_dir requested = .error e →
      e = "path_outside_project_scope") ∧
    (∀ tool_name platform proceed,
      scoped_path project_root current_dir requested = .error "path_outside_project_scope" →
      file_tool_gate project_root current_dir tool_name platform requested proceed =
        tool_error tool_name platform "path_outside_project_scope" tool_name
          (project_root_display project_root) ∧
      (file_tool_gate project_root current_dir tool_name platform requested
          proceed).result_json.getKey "status" = some (.str "error") ∧
      (file_tool_gate project_root current_dir tool_name platform requested
          proceed).result_json.getKey "error" =
        some (.str "path_outside_project_scope")) ∧
    (∀ (q : RustPath) (s : String),
      normalize_path (q ++ [Component.curDir]) = normalize_path q ∧
      normalize_path (q ++ [Component.parentDir]) = pathPop (normalize_path q) ∧
      normalize_path (q ++ [Component.normal s]) = normalize_path q ++ [Component.normal s]) := by
  refine ⟨?_, ?_, ?_, ?_⟩
  · intro p hp
    rw [scoped_path_spec] at hp
    split at hp <;> split at hp <;> simp_all
  · intro e he
    rw [scoped_path_spec] at he
    split at he <;> split at he <;> simp_all
  · intro tool_name platform proceed herr
    refine ⟨?_, ?_, ?_⟩ <;> simp [file_tool_gate, herr, tool_error, Json.getKey]
  · intro q s
    exact ⟨normalize_path_curDir q, normalize_path_parentDir q, normalize_path_normal q s⟩

/-- A concrete stand-in for a filesystem operation, used by the C7 witness. -/
def witnessProceed : RustPath → ToolResult := fun p =>
  { name := "file.read_text", result_json := Json.str (pathDisplay p),
    evidence := { summary := "read", artifacts := [] } }

/-- Witness for C7 at concrete inputs: with project root `/tmp/proj`, the
request `../../etc/passwd` escapes the root, the gate returns the
`path_outside_project_scope` error result without invoking the filesystem
operation, while the request `notes.txt` stays contained. -/
theorem path_containment_witness :
    (file_tool_gate (some [Component.rootDir, Component.normal "tmp", Component.normal "proj"])
        [Component.rootDir] "file.read_text" "test"
        (some [Component.parentDir, Component.parentDir, Component.normal "etc",
          Component.normal "passwd"])
        witnessProceed).result_json.getKey "error" =
      some (.str "path_outside_project_scope") ∧
    (normalize_path [Component.rootDir, Component.normal "tmp", Component.normal "proj"]).isPrefixOf
      (normalize_path [Component.rootDir, Component.normal "tmp", Component.normal "proj",
        Component.normal "notes.txt"]) = true := by
  have h := path_containment
    (some [Component.rootDir, Component.normal "tmp", Component.normal "proj"])
    [Component.rootDir]
    (some [Component.parentDir, Component.parentDir, Component.normal "etc",
      Component.normal "passwd"])
  have h2 := path_containment
    (some [Component.rootDir, Component.normal "tmp", Component.normal "proj"])
    [Component.rootDir]
    (some [Component.normal "notes.txt"])
  refine ⟨(h.2.2.1 "file.read_text" "test" witnessProceed rfl).2.2, ?_⟩
  have := (h2.1 _ rfl).1
  simpa using this

/- Lemmas about sensitive-key redaction. -/

/-- Array elements rewritten at one index are erased by redaction whenever the
per-element rewrite is (stated over `enumFrom` so the index offset can vary in
the induction). -/
lemma redactArrItems_update_enumFrom (g : Json → Json)
    (hg : ∀ v, redact_sensitive_json (g v) = redact_sensitive_json v) (i : Nat) :
    ∀ (n : Nat) (items : List Json),
      redactArrItems ((items.enumFrom n).map
        (fun q => if q.1 == i then g q.2 else q.2)) = redactArrItems items := by
  intro n items
  induction items generalizing n with
  | nil => simp [redactArrItems]
  | cons x xs ih =>
    simp only [List.enumFrom_cons, List.map_cons]
    by_cases h : (n == i) = true
    · rw [if_pos h]
      simp only [redactArrItems, hg x, ih (n + 1)]
    · rw [if_neg h]
      simp only [redactArrItems, ih (n + 1)]

/-- Redaction erases any rewrite applied at a path ending under a sensitive
key: what is stored under a sensitive key cannot influence the redacted
tree. -/
lemma redact_updateAtPath_sensitive (k : String) (hk : is_sensitive_key k = true)
    (f : Json → Json) :
    ∀ (p : List JsonPathStep) (v : Json),
      redact_sensitive_json (updateAtPath (p ++ [.field k]) f v) = redact_sensitive_json v := by
  intro p
  induction p with
  | nil =>
    intro v
    cases v with
    | obj entries =>
      simp only [List.nil_append, updateAtPath, redact_sensitive_json]
      congr 1
      induction entries with
      | nil => simp
      | cons kv rest ihe =>
        obtain ⟨k', v'⟩ := kv
        simp only [List.map_cons]
        by_cases hkk : (k' == k) = true
        · rw [if_pos hkk]
          have hk' : k' = k := eq_of_beq hkk
          subst hk'
          simp only [redactObjEntries, hk, if_pos rfl, ihe, if_true]
        · rw [if_neg hkk]
          simp only [redactObjEntries, ihe]
    | null => rfl
    | bool b => rfl
    | num n => rfl
    | str s => rfl
    | arr items => rfl
  | cons step p' ih =>
    intro v
    cases step with
    | field k' =>
      cases v with
      | obj entries =>
        simp only [List.cons_append, updateAtPath, redact_sensitive_json]
        congr 1
        induction entries with
        | nil => simp
        | cons kv rest ihe =>
          obtain ⟨k'', v''⟩ := kv
          simp only [List.map_cons]
          by_cases hkk : (k'' == k') = true
          · rw [if_pos hkk]
            by_cases hs : is_sensitive_key k'' = true
            · simp only [redactObjEntries, hs, if_pos rfl, ihe, if_true]
            · rw [Bool.not_eq_true] at hs
              simp only [List.append_eq] at ihe
              simp only [redactObjEntries, hs, Bool.false_eq_true, if_neg, ihe,
                List.append_eq, ih v'', if_false]
          · rw [if_neg hkk]
            simp only [redactObjEntries, ihe]
      | null => rfl
      | bool b => rfl
      | num n => rfl
      | str s => rfl
      | arr items => rfl
    | index i =>
      cases v with
      | arr items =>
        simp only [List.cons_append, updateAtPath, redact_sensitive_json]
        congr 1
        exact redactArrItems_update_enumFrom (updateAtPath (p' ++ [.field k]) f) ih i 0 items
      | null => rfl
      | bool b => rfl
      | num n => rfl
      | str s => rfl
      | obj entries => rfl

/-- C8.  Sanitization: the `arguments_preview` placed on emitted ActionEvents
is the recursive `[REDACTED]` replacement of every value under a sensitive key
(`api_key`, `apikey`, `token`, `authorization`, `password`, `secret`,
`content`, matched case-insensitively), serialized and truncated to 180
characters (with a `"..."` marker when cut); consequently changing only the
value stored under a sensitive key — at any depth — never changes the emitted
preview, so no preview depends on such a value. -/
theorem arguments_preview_noninterference (v : Json) (p : List JsonPathStep) (k : String)
    (f : Json → Json) (hk : is_sensitive_key k = true) :
    arguments_preview (updateAtPath (p ++ [JsonPathStep.field k]) f v) = arguments_preview v := by
  simp only [arguments_preview, sanitize_arguments_preview,
    redact_updateAtPath_sensitive k hk f p v]

/-- Witness for C8: rewriting the value stored under the sensitive key
`token` (here from `"abc123"` to `"changed"`) leaves the emitted preview of a
concrete payload unchanged. -/
theorem arguments_preview_noninterference_witness :
    is_sensitive_key "token" = true ∧
    arguments_preview (updateAtPath [JsonPathStep.field "token"] (fun _ => Json.str "changed")
        (Json.obj [("path", Json.str "notes/out.txt"), ("token", Json.str "abc123")])) =
      arguments_preview
        (Json.obj [("path", Json.str "notes/out.txt"), ("token", Json.str "abc123")]) := by
  refine ⟨by decide, ?_⟩
  exact arguments_preview_noninterference
    (Json.obj [("path", Json.str "notes/out.txt"), ("token", Json.str "abc123")])
    [] "token" (fun _ => Json.str "changed") (by decide)

/- Fingerprint lemmas. -/

/-- The (role, content) projection determines a chat message list. -/
lemma chatMessages_eq_of_map_eq :
    ∀ (m1 m2 : List ChatMessage),
      m1.map (fun m => (m.role, m.content)) = m2.map (fun m => (m.role, m.content)) →
      m1 = m2 := by
  intro m1
  induction m1 with
  | nil =>
    intro m2 h
    cases m2 with
    | nil => rfl
    | cons y ys => simp at h
  | cons x xs ih =>
    intro m2 h
    cases m2 with
    | nil => simp at h
    | cons y ys =>
      simp only [List.map_cons, List.cons.injEq, Prod.mk.injEq] at h
      obtain ⟨⟨hr, hc⟩, ht⟩ := h
      have : x = y := by
        cases x
        cases y
        simp_all
      rw [this, ih ys ht]

/-- A lowercase hexadecimal digit. -/
def isLowerHexDigit (c : Char) : Bool :=
  c.isDigit || ('a' ≤ c && c ≤ 'f')

/-- Every digit the renderer emits is lowercase hex. -/
lemma isLowerHexDigit_hexDigitChar (n : Nat) (h : n < 16) :
    isLowerHexDigit (hexDigitChar n) = true := by
  revert h
  revert n
  decide

/-- C9.  Request-fingerprint congruence and format: any two inputs agreeing on
`provider_name`, `model`, the mode tag, and the sequence of (role, content)
pairs hash to equal fingerprints, and every fingerprint is `"req-"` followed
by exactly sixteen lowercase hexadecimal digits. -/
theorem request_fingerprint_stable_and_hex :
    (∀ (m1 m2 : List ChatMessage) (pc1 pc2 : ProviderConfig) (mode1 mode2 : ChatMode),
      pc1.provider_name = pc2.provider_name → pc1.model = pc2.model →
      chatModeTag mode1 = chatModeTag mode2 →
      m1.map (fun m => (m.role, m.content)) = m2.map (fun m => (m.role, m.content)) →
      request_fingerprint m1 pc1 mode1 = request_fingerprint m2 pc2 mode2) ∧
    (∀ (m : List ChatMessage) (pc : ProviderConfig) (mode : ChatMode),
      ∃ ds : List Char, ds.length = 16 ∧ (∀ c ∈ ds, isLowerHexDigit c = true) ∧
        request_fingerprint m pc mode = "req-" ++ String.mk ds) := by
  constructor
  · intro m1 m2 pc1 pc2 mode1 mode2 h1 h2 h3 h4
    have hm : m1 = m2 := chatMessages_eq_of_map_eq m1 m2 h4
    subst hm
    unfold request_fingerprint
    rw [h1, h2, h3]
  · intro m pc mode
    refine ⟨_, ?_, ?_, rfl⟩
    · simp [toHex16]
    · intro c hc
      simp only [toHex16, List.mem_map, List.mem_range] at hc
      obtain ⟨i, _, rfl⟩ := hc
      exact isLowerHexDigit_hexDigitChar _ (Nat.mod_lt _ (by norm_num))

/-- Witness for C9: two concrete requests with equal hashed fields produce the
same fingerprint, and the fingerprint of a concrete request is `"req-"` plus
sixteen lowercase hex digits. -/
theorem request_fingerprint_stable_and_hex_witness :
    request_fingerprint [{ role := "user", content := "hi" }]
        { provider_name := "openai-stub", model := none } ChatMode.BestEffort =
      request_fingerprint [{ role := "user", content := "hi" }]
        { provider_name := "openai-stub", model := none } ChatMode.BestEffort ∧
    ∃ ds : List Char, ds.length = 16 ∧ (∀ c ∈ ds, isLowerHexDigit c = true) ∧
      request_fingerprint [{ role := "user", content := "hi" }]
          { provider_name := "openai-stub", model := none } ChatMode.BestEffort =
        "req-" ++ String.mk ds := by
  constructor
  · exact request_fingerprint_stable_and_hex.1 _ _ _ _ _ _ rfl rfl rfl rfl
  · exact request_fingerprint_stable_and_hex.2 _ _ _

/- Policy lemmas. -/

/-- The default policy does not force confirmation for read-only tools. -/
lemma default_require_confirmation_false :
    Policy.default.default_require_confirmation = false := rfl

/-- The policy inspects only the tool call's name, never its arguments. -/
lemma authorize_ignores_arguments (policy : Policy) (name : String) (a b : Json)
    (ctx : PolicyContext) :
    policy.authorize { name := name, arguments_json := a } ctx =
      policy.authorize { name := name, arguments_json := b } ctx := rfl

/-- C3 counterexample: the claim's authorization table says a `ReadOnly` tool
under `mode == RequireConfirmation` gets `RequireConfirmation`, with no
exception for `user_confirmed`; but in the code `user_confirmed = true`
(the approval replay) turns it into `Allow`.  Concretely `time.now` is
`ReadOnly`, and with `mode = RequireConfirmation, user_confirmed = true` the
decision is `Allow`, not `RequireConfirmation`. -/
theorem policy_table_counterexample :
    Policy.default.capability_tier { name := "time.now", arguments_json := Json.null } =
      CapabilityTier.ReadOnly ∧
    Policy.default.authorize { name := "time.now", arguments_json := Json.null }
        { mode := ChatMode.RequireConfirmation, user_confirmed := true } =
      Authorization.Allow ∧
    (∀ r, Policy.default.authorize { name := "time.now", arguments_json := Json.null }
        { mode := ChatMode.RequireConfirmation, user_confirmed := true } ≠
      Authorization.RequireConfirmation r) := by
  refine ⟨by decide, by decide, fun r h => ?_⟩
  have hallow : Policy.default.authorize { name := "time.now", arguments_json := Json.null }
      { mode := ChatMode.RequireConfirmation, user_confirmed := true } =
      Authorization.Allow := by decide
  rw [hallow] at h
  exact Authorization.noConfusion h

/-- C3 (amended).  The capability tier follows the ordered first-match rules
of §4.1 (stated verbatim as `spec_capability_tier`); `internal.`-prefixed
names are denied regardless of mode; with the default policy, `ReadOnly`
authorizes `Allow` unless `mode == RequireConfirmation` **and
`user_confirmed = false`** (then `RequireConfirmation`); `LocalActions` and
`SystemActions` get `RequireConfirmation` unless `user_confirmed`; and a tool
name not in the registry is denied with reason `unknown_tool` and never
executed (no tool result, no executed event). -/
theorem policy_table_amended :
    (∀ (policy : Policy) (call : ToolCall),
      policy.capability_tier call = spec_capability_tier call.name) ∧
    (∀ (policy : Policy) (call : ToolCall) (ctx : PolicyContext),
      strStartsWith call.name "internal." = true →
      policy.authorize call ctx = .Deny "internal.* tools are reserved") ∧
    (∀ (call : ToolCall) (ctx : PolicyContext),
      strStartsWith call.name "internal." = false →
      Policy.default.capability_tier call = .ReadOnly →
      Policy.default.authorize call ctx =
        if ctx.mode = ChatMode.RequireConfirmation ∧ ctx.user_confirmed = false then
          .RequireConfirmation
            ("Tool \x27" ++ call.name ++ "\x27 requires explicit user consent")
        else .Allow) ∧
    (∀ (call : ToolCall) (ctx : PolicyContext),
      strStartsWith call.name "internal." = false →
      (Policy.default.capability_tier call = .LocalActions ∨
        Policy.default.capability_tier call = .SystemActions) →
      Policy.default.authorize call ctx =
        if ctx.user_confirmed then .Allow
        else .RequireConfirmation
          ("Tool \x27" ++ call.name ++ "\x27 requires explicit user consent")) ∧
    (∀ (policy : Policy) (registry : ToolRegistry) (backend : BackendFn) (mode : ChatMode)
        (user_confirmed : Bool) (st : LoopState) (pending : Bool) (call : ToolCall),
      registry.has_tool call.name = false →
      (process_tool_call policy registry backend mode user_confirmed (st, pending) call).2 =
        pending ∧
      (process_tool_call policy registry backend mode user_confirmed
        (st, pending) call).1.tool_results = st.tool_results ∧
      (process_tool_call policy registry backend mode user_confirmed
        (st, pending) call).1.executed_action_events = st.executed_action_events ∧
      (process_tool_call policy registry backend mode user_confirmed
        (st, pending) call).1.proposed_actions = st.proposed_actions ++
        [{ tool_name := call.name, capability_tier := capability_tier_label .SystemActions,
           status := "denied", reason := some "unknown_tool",
           arguments_preview := some (arguments_preview call.arguments_json),
           evidence_summary := none }] ∧
      (process_tool_call policy registry backend mode user_confirmed
        (st, pending) call).1.policy_decisions = st.policy_decisions ++
        [{ tool_name := call.name, capability_tier := .SystemActions,
           decision := "deny", reason := some "unknown_tool" }]) := by
  refine ⟨fun policy call => rfl, ?_, ?_, ?_, ?_⟩
  · intro policy call ctx h
    simp [Policy.authorize, h]
  · intro call ctx h ht
    rcases ctx with ⟨mode, uc⟩
    cases mode <;> cases uc <;>
      simp [Policy.authorize, h, ht, default_require_confirmation_false]
  · intro call ctx h ht
    rcases ctx with ⟨mode, uc⟩
    rcases ht with ht | ht <;> cases uc <;>
      simp [Policy.authorize, h, ht, default_require_confirmation_false]
  · intro policy registry backend mode user_confirmed st pending call h
    refine ⟨?_, ?_, ?_, ?_, ?_⟩ <;> simp [process_tool_call, h]

/-- A concrete action backend used by witnesses: echoes the tool name into the
result and evidence. -/
def witnessBackend : BackendFn := fun call =>
  { name := call.name, result_json := Json.null,
    evidence := { summary := "executed " ++ call.name, artifacts := [] } }

/-- Witness for C3 (amended) at concrete inputs: `file.read_csv` classifies
exactly as the spec's ordered table says; `internal.secret` is denied
regardless of mode; `desktop.app.list` without prior confirmation requires
consent; and an unregistered `mystery.op` is denied with `unknown_tool`,
producing no tool result and no executed event. -/
theorem policy_table_amended_witness :
    Policy.default.capability_tier { name := "file.read_csv", arguments_json := Json.null } =
      spec_capability_tier "file.read_csv" ∧
    Policy.default.authorize { name := "internal.secret", arguments_json := Json.null }
        { mode := ChatMode.BestEffort, user_confirmed := false } =
      .Deny "internal.* tools are reserved" ∧
    Policy.default.authorize { name := "desktop.app.list", arguments_json := Json.null }
        { mode := ChatMode.BestEffort, user_confirmed := false } =
      .RequireConfirmation "Tool \x27desktop.app.list\x27 requires explicit user consent" ∧
    (process_tool_call Policy.default (ToolRegistry.from_tools []) witnessBackend
        ChatMode.BestEffort false (LoopState.initial, false)
        { name := "mystery.op", arguments_json := Json.null }).1.tool_results = [] ∧
    (process_tool_call Policy.default (ToolRegistry.from_tools []) witnessBackend
        ChatMode.BestEffort false (LoopState.initial, false)
        { name := "mystery.op", arguments_json := Json.null }).1.executed_action_events = [] := by
  have h := policy_table_amended
  refine ⟨h.1 Policy.default _, h.2.1 Policy.default _ _ (by decide), ?_, ?_, ?_⟩
  · have hx := h.2.2.2.1 { name := "desktop.app.list", arguments_json := Json.null }
      { mode := ChatMode.BestEffort, user_confirmed := false } (by decide) (Or.inl (by decide))
    simpa using hx
  · have hx := (h.2.2.2.2 Policy.default (ToolRegistry.from_tools []) witnessBackend
      ChatMode.BestEffort false LoopState.initial false
      { name := "mystery.op", arguments_json := Json.null } (by decide)).2.1
    simpa [LoopState.initial] using hx
  · have hx := (h.2.2.2.2 Policy.default (ToolRegistry.from_tools []) witnessBackend
      ChatMode.BestEffort false LoopState.initial false
      { name := "mystery.op", arguments_json := Json.null } (by decide)).2.2.1
    simpa [LoopState.initial] using hx

/- Loop bound lemmas. -/

/-- The loop counter can grow by at most `rounds_left + 1` over a run. -/
lemma run_loop_rounds_le (provider : ProviderFn) (backend : BackendFn) (policy : Policy)
    (registry : ToolRegistry) (messages : List ChatMessage) (tools : List Tool)
    (cfg : ProviderConfig) (mode : ChatMode) (uc : Bool) :
    ∀ (rounds_left : Nat) (reply : ProviderReply) (tool_rounds : Nat) (st : LoopState),
      (run_loop provider backend policy registry messages tools cfg mode uc
        rounds_left reply tool_rounds st).2.1 ≤ tool_rounds + rounds_left + 1 := by
  intro rounds_left
  induction rounds_left with
  | zero =>
    intro reply tr st
    cases reply with
    | FinalText t => simp [run_loop]
    | ToolCalls calls => simp [run_loop]
  | succ rl ih =>
    intro reply tr st
    cases reply with
    | FinalText t =>
      simp only [run_loop]
      omega
    | ToolCalls calls =>
      simp only [run_loop]
      split
      · dsimp only
        omega
      · have h := ih (provider messages tools
          ((calls.foldl (process_tool_call policy registry backend mode uc) (st, false)).1.tool_results)
          cfg) (tr + 1)
          (calls.foldl (process_tool_call policy registry backend mode uc) (st, false)).1
        omega

/-- C6.  Bounded tool loop: every orchestrator run terminates (the loop is a
total function) with its round counter at most `MAX_TOOL_ROUNDS + 1`, so at
most `MAX_TOOL_ROUNDS = 4` `ToolCalls` replies are ever processed; the 5th
`ToolCalls` reply is not processed — the loop breaks at once with the explicit
bounded-termination text, leaving every accumulator untouched; and a round
that raises `consent_required` while producing no tool result breaks with
"Confirmation required before executing requested tools.". -/
theorem bounded_tool_loop (provider : ProviderFn) (backend : BackendFn) (policy : Policy)
    (registry : ToolRegistry) :
    (∀ (ac ts : Nat) (messages : List ChatMessage) (cfg : ProviderConfig) (mode : ChatMode)
        (uc : Bool),
      (run_with_confirmation provider backend policy registry ac ts messages cfg mode
        uc).tool_rounds ≤ MAX_TOOL_ROUNDS + 1) ∧
    (∀ (messages : List ChatMessage) (tools : List Tool) (cfg : ProviderConfig)
        (mode : ChatMode) (uc : Bool) (calls : List ToolCall) (tr : Nat) (st : LoopState),
      run_loop provider backend policy registry messages tools cfg mode uc 0
          (.ToolCalls calls) tr st =
        ("Provider requested more than 4 tool rounds; stopping for safety.", tr + 1, st)) ∧
    (∀ (messages : List ChatMessage) (tools : List Tool) (cfg : ProviderConfig)
        (mode : ChatMode) (uc : Bool) (rl : Nat) (calls : List ToolCall) (tr : Nat)
        (st : LoopState),
      (calls.foldl (process_tool_call policy registry backend mode uc) (st, false)).2 = true →
      (calls.foldl (process_tool_call policy registry backend mode uc)
          (st, false)).1.tool_results.length = st.tool_results.length →
      run_loop provider backend policy registry messages tools cfg mode uc (rl + 1)
          (.ToolCalls calls) tr st =
        ("Confirmation required before executing requested tools.", tr + 1,
          (calls.foldl (process_tool_call policy registry backend mode uc) (st, false)).1)) := by
  refine ⟨?_, ?_, ?_⟩
  · intro ac ts messages cfg mode uc
    simp only [run_with_confirmation]
    exact le_trans (run_loop_rounds_le provider backend policy registry messages
      registry.list cfg mode uc MAX_TOOL_ROUNDS _ 0 LoopState.initial) (by norm_num)
  · intro messages tools cfg mode uc calls tr st
    rfl
  · intro messages tools cfg mode uc rl calls tr st h1 h2
    simp only [run_loop, h1, h2, Nat.beq_refl, Bool.true_and, if_true, beq_self_eq_true]

/-- A provider that immediately finishes, used by witnesses. -/
def witnessProviderDone : ProviderFn := fun _ _ _ _ => ProviderReply.FinalText "done"

/-- A registry holding only `desktop.app.activate`, used by witnesses. -/
def witnessActivateRegistry : ToolRegistry :=
  ToolRegistry.from_tools
    [{ name := "desktop.app.activate", description := "", input_json_schema := "" }]

/-- A concrete provider config, used by witnesses. -/
def witnessCfg : ProviderConfig :=
  { provider_name := "openai-stub", model := none }

/-- A concrete consent-gated tool call, used by witnesses. -/
def witnessActivateCall : ToolCall :=
  { name := "desktop.app.activate", arguments_json := Json.null }

/-- Witness for C6 at concrete inputs: a 5th `ToolCalls` reply produces the
bounded-termination message with the accumulators untouched, and a consent-only
round (a single `desktop.app.activate` call with no prior confirmation) breaks
with the confirmation message. -/
theorem bounded_tool_loop_witness :
    run_loop witnessProviderDone witnessBackend Policy.default witnessActivateRegistry
        [] [] witnessCfg ChatMode.BestEffort false 0
        (.ToolCalls [witnessActivateCall]) 4 LoopState.initial =
      ("Provider requested more than 4 tool rounds; stopping for safety.", 5,
        LoopState.initial) ∧
    (run_loop witnessProviderDone witnessBackend Policy.default witnessActivateRegistry
        [] [] witnessCfg ChatMode.BestEffort false 3
        (.ToolCalls [witnessActivateCall]) 0 LoopState.initial).1 =
      "Confirmation required before executing requested tools." := by
  have h := bounded_tool_loop witnessProviderDone witnessBackend Policy.default
    witnessActivateRegistry
  constructor
  · exact h.2.1 [] [] witnessCfg ChatMode.BestEffort false [witnessActivateCall] 4
      LoopState.initial
  · have hx := h.2.2 [] [] witnessCfg ChatMode.BestEffort false 2 [witnessActivateCall] 0
      LoopState.initial (by decide) (by decide)
    rw [hx]

/- Loop soundness invariant (amended C4). -/

/-- The invariant the tool loop maintains: every `executed_actions` entry is
either the name of a tool with a recorded `allow` decision or a
`denied:`/`confirm_required:` marker, and every executed event has status
`executed`, an `allow` decision, and an authorization of `Allow`. -/
def LoopStateSound (policy : Policy) (mode : ChatMode) (uc : Bool) (st : LoopState) : Prop :=
  (∀ e ∈ st.executed_actions,
    (∃ d ∈ st.policy_decisions, d.tool_name = e ∧ d.decision = "allow") ∨
    (∃ rest, e = "denied:" ++ rest) ∨ (∃ rest, e = "confirm_required:" ++ rest)) ∧
  (∀ ev ∈ st.executed_action_events,
    ev.status = "executed" ∧
    (∃ d ∈ st.policy_decisions, d.tool_name = ev.tool_name ∧ d.decision = "allow") ∧
    policy.authorize { name := ev.tool_name, arguments_json := Json.null }
      { mode := mode, user_confirmed := uc } = .Allow)

/-- One processed call preserves the soundness invariant. -/
lemma process_tool_call_sound (policy : Policy) (registry : ToolRegistry)
    (backend : BackendFn) (mode : ChatMode) (uc : Bool) (st : LoopState) (pending : Bool)
    (call : ToolCall) (h : LoopStateSound policy mode uc st) :
    LoopStateSound policy mode uc
      (process_tool_call policy registry backend mode uc (st, pending) call).1 := by
  obtain ⟨h1, h2⟩ := h
  by_cases hreg : registry.has_tool call.name
  · simp only [process_tool_call, hreg, Bool.not_true, Bool.false_eq_true, if_false]
    rcases hauth : policy.authorize call { mode := mode, user_confirmed := uc } with
      _ | reason | reason
    all_goals simp only [hauth]
    · -- Allow: the call executes and records an allow decision
      constructor
      · intro e he
        simp only [List.mem_append, List.mem_singleton] at he
        rcases he with he | he
        · rcases h1 e he with ⟨d, hd, hde⟩ | hmark | hmark
          · exact Or.inl ⟨d, List.mem_append_left _ hd, hde⟩
          · exact Or.inr (Or.inl hmark)
          · exact Or.inr (Or.inr hmark)
        · subst he
          exact Or.inl ⟨_, List.mem_append_right _ (List.mem_singleton.mpr rfl),
            rfl, rfl⟩
      · intro ev hev
        simp only [List.mem_append, List.mem_singleton] at hev
        rcases hev with hev | hev
        · obtain ⟨hs, ⟨d, hd, hde⟩, ha⟩ := h2 ev hev
          exact ⟨hs, ⟨d, List.mem_append_left _ hd, hde⟩, ha⟩
        · subst hev
          refine ⟨rfl, ⟨_, List.mem_append_right _ (List.mem_singleton.mpr rfl),
            rfl, rfl⟩, ?_⟩
          rw [← hauth]
          rfl
    · -- RequireConfirmation: only a marker is appended
      constructor
      · intro e he
        simp only [List.mem_append, List.mem_singleton] at he
        rcases he with he | he
        · rcases h1 e he with ⟨d, hd, hde⟩ | hmark | hmark
          · exact Or.inl ⟨d, List.mem_append_left _ hd, hde⟩
          · exact Or.inr (Or.inl hmark)
          · exact Or.inr (Or.inr hmark)
        · subst he
          exact Or.inr (Or.inr ⟨call.name ++ ":" ++ reason, by simp [String.append_assoc]⟩)
      · intro ev hev
        obtain ⟨hs, ⟨d, hd, hde⟩, ha⟩ := h2 ev hev
        exact ⟨hs, ⟨d, List.mem_append_left _ hd, hde⟩, ha⟩
    · -- Deny: only a marker is appended
      constructor
      · intro e he
        simp only [List.mem_append, List.mem_singleton] at he
        rcases he with he | he
        · rcases h1 e he with ⟨d, hd, hde⟩ | hmark | hmark
          · exact Or.inl ⟨d, List.mem_append_left _ hd, hde⟩
          · exact Or.inr (Or.inl hmark)
          · exact Or.inr (Or.inr hmark)
        · subst he
          exact Or.inr (Or.inl ⟨call.name ++ ":" ++ reason, by simp [String.append_assoc]⟩)
      · intro ev hev
        obtain ⟨hs, ⟨d, hd, hde⟩, ha⟩ := h2 ev hev
        exact ⟨hs, ⟨d, List.mem_append_left _ hd, hde⟩, ha⟩
  · rw [Bool.not_eq_true] at hreg
    simp only [process_tool_call, hreg, Bool.not_false, if_true]
    constructor
    · intro e he
      simp only [List.mem_append, List.mem_singleton] at he
      rcases he with he | he
      · rcases h1 e he with ⟨d, hd, hde⟩ | hmark | hmark
        · exact Or.inl ⟨d, List.mem_append_left _ hd, hde⟩
        · exact Or.inr (Or.inl hmark)
        · exact Or.inr (Or.inr hmark)
      · subst he
        exact Or.inr (Or.inl ⟨call.name ++ ":unknown_tool", by simp [String.append_assoc]⟩)
    · intro ev hev
      obtain ⟨hs, ⟨d, hd, hde⟩, ha⟩ := h2 ev hev
      exact ⟨hs, ⟨d, List.mem_append_left _ hd, hde⟩, ha⟩

/-- A whole round of calls preserves the soundness invariant. -/
lemma foldl_process_sound (policy : Policy) (registry : ToolRegistry) (backend : BackendFn)
    (mode : ChatMode) (uc : Bool) :
    ∀ (calls : List ToolCall) (st : LoopState) (pending : Bool),
      LoopStateSound policy mode uc st →
      LoopStateSound policy mode uc
        (calls.foldl (process_tool_call policy registry backend mode uc) (st, pending)).1 := by
  intro calls
  induction calls with
  | nil => intro st pending h; simpa using h
  | cons c cs ih =>
    intro st pending h
    simp only [List.foldl_cons]
    exact ih _ _ (process_tool_call_sound policy registry backend mode uc st pending c h)

/-- The whole loop preserves the soundness invariant. -/
lemma run_loop_sound (provider : ProviderFn) (backend : BackendFn) (policy : Policy)
    (registry : ToolRegistry) (messages : List ChatMessage) (tools : List Tool)
    (cfg : ProviderConfig) (mode : ChatMode) (uc : Bool) :
    ∀ (rl : Nat) (reply : ProviderReply) (tr : Nat) (st : LoopState),
      LoopStateSound policy mode uc st →
      LoopStateSound policy mode uc
        (run_loop provider backend policy registry messages tools cfg mode uc
          rl reply tr st).2.2 := by
  intro rl
  induction rl with
  | zero =>
    intro reply tr st h
    cases reply with
    | FinalText t => simpa [run_loop] using h
    | ToolCalls calls => simpa [run_loop] using h
  | succ rl ih =>
    intro reply tr st h
    cases reply with
    | FinalText t => simpa [run_loop] using h
    | ToolCalls calls =>
      simp only [run_loop]
      split
      · exact foldl_process_sound policy registry backend mode uc calls st false h
      · exact ih _ _ _ (foldl_process_sound policy registry backend mode uc calls st false h)

/-- A provider that first asks for an unknown tool plus `echo`, then
finishes; used by the C4 counterexample. -/
def cxProvider : ProviderFn := fun _ _ tool_results _ =>
  if tool_results.isEmpty then
    ProviderReply.ToolCalls
      [{ name := "mystery.op", arguments_json := Json.null },
       { name := "echo", arguments_json := Json.null }]
  else
    ProviderReply.FinalText "done"

/-- A registry holding only `echo`. -/
def cxRegistry : ToolRegistry :=
  ToolRegistry.from_tools [{ name := "echo", description := "", input_json_schema := "" }]

/-- C4 counterexample: `actions_executed` does not list only tools whose
policy decision was `allow`.  In a run where the provider requests the
unregistered `mystery.op` (denied with `unknown_tool`) alongside `echo`, the
returned `actions_executed` contains the entry
`"denied:mystery.op:unknown_tool"`, which is not the name of any tool with an
`allow` decision (the run's decisions are a `deny` for `mystery.op` and an
`allow` for `echo`).  Denied and confirmation-gated calls are recorded in
`actions_executed` as `denied:`/`confirm_required:` marker strings. -/
theorem actions_executed_counterexample :
    "denied:mystery.op:unknown_tool" ∈
      (run_with_confirmation cxProvider witnessBackend Policy.default cxRegistry 0 0 []
        witnessCfg ChatMode.BestEffort false).response.actions_executed ∧
    ¬ ∃ d ∈ (run_with_confirmation cxProvider witnessBackend Policy.default cxRegistry 0 0 []
        witnessCfg ChatMode.BestEffort false).audit.policy_decisions,
      d.tool_name = "denied:mystery.op:unknown_tool" ∧ d.decision = "allow" := by
  constructor
  · decide
  · decide

/-- Without prior user confirmation, only `ReadOnly` tools can be
authorized `Allow`. -/
lemma allow_unconfirmed_readonly (policy : Policy) (n : String) (mode : ChatMode)
    (h : policy.authorize { name := n, arguments_json := Json.null }
      { mode := mode, user_confirmed := false } = .Allow) :
    policy.capability_tier { name := n, arguments_json := Json.null } = .ReadOnly := by
  unfold Policy.authorize at h
  split at h
  · cases h
  · rcases htier : policy.capability_tier { name := n, arguments_json := Json.null } with
      _ | _ | _
    · rfl
    · rw [htier] at h
      simp at h
    · rw [htier] at h
      simp at h

/-- C4 (amended).  In every orchestrator run: each `actions_executed` entry is
either the name of a tool whose policy decision was `allow` or a marker
prefixed `denied:` / `confirm_required:`; every event in
`executed_action_events` has status `executed`, is backed by an `allow`
decision and an `Allow` authorization; and when `user_confirmed = false` every
executed event concerns a `ReadOnly` tool — so a consent-gated
(`LocalActions`/`SystemActions`) call never reaches `executed_action_events`
before an approval replay sets `user_confirmed = true`, and appears only in
`proposed_actions` (with status `consent_required`). -/
theorem actions_executed_amended (provider : ProviderFn) (backend : BackendFn)
    (policy : Policy) (registry : ToolRegistry) (ac ts : Nat)
    (messages : List ChatMessage) (cfg : ProviderConfig) (mode : ChatMode) (uc : Bool) :
    (∀ e ∈ (run_with_confirmation provider backend policy registry ac ts messages cfg mode
        uc).response.actions_executed,
      (∃ d ∈ (run_with_confirmation provider backend policy registry ac ts messages cfg mode
          uc).audit.policy_decisions, d.tool_name = e ∧ d.decision = "allow") ∨
      (∃ rest, e = "denied:" ++ rest) ∨ (∃ rest, e = "confirm_required:" ++ rest)) ∧
    (∀ ev ∈ (run_with_confirmation provider backend policy registry ac ts messages cfg mode
        uc).response.executed_action_events,
      ev.status = "executed" ∧
      (∃ d ∈ (run_with_confirmation provider backend policy registry ac ts messages cfg mode
          uc).audit.policy_decisions, d.tool_name = ev.tool_name ∧ d.decision = "allow") ∧
      policy.authorize { name := ev.tool_name, arguments_json := Json.null }
        { mode := mode, user_confirmed := uc } = .Allow) ∧
    (uc = false →
      ∀ ev ∈ (run_with_confirmation provider backend policy registry ac ts messages cfg mode
          uc).response.executed_action_events,
        policy.capability_tier { name := ev.tool_name, arguments_json := Json.null } =
          .ReadOnly) := by
  have hsound := run_loop_sound provider backend policy registry messages registry.list cfg
    mode uc MAX_TOOL_ROUNDS (provider messages registry.list [] cfg) 0 LoopState.initial
    (by constructor <;> simp [LoopState.initial])
  refine ⟨?_, ?_, ?_⟩
  · intro e he
    exact hsound.1 e he
  · intro ev hev
    exact hsound.2 ev hev
  · intro huc ev hev
    subst huc
    exact allow_unconfirmed_readonly policy ev.tool_name mode ((hsound.2 ev hev).2.2)

/-- Witness for C4 (amended): in the concrete counterexample run, the amended
theorem classifies the entry `"denied:mystery.op:unknown_tool"` as a
`denied:`-marker or an allow-backed name. -/
theorem actions_executed_amended_witness :
    (∃ d ∈ (run_with_confirmation cxProvider witnessBackend Policy.default cxRegistry 0 0 []
        witnessCfg ChatMode.BestEffort false).audit.policy_decisions,
      d.tool_name = "denied:mystery.op:unknown_tool" ∧ d.decision = "allow") ∨
    (∃ rest, "denied:mystery.op:unknown_tool" = "denied:" ++ rest) ∨
    (∃ rest, "denied:mystery.op:unknown_tool" = "confirm_required:" ++ rest) := by
  exact (actions_executed_amended cxProvider witnessBackend Policy.default cxRegistry 0 0 []
    witnessCfg ChatMode.BestEffort false).1 "denied:mystery.op:unknown_tool" (by decide)

/- Lemmas about the consent store. -/

/-- An unknown consent id fails with `consent_not_found`, store untouched. -/
lemma mark_not_found (cid ns : String) (now : Nat) :
    ∀ (items : List PendingConsentState), findConsent items cid = none →
      mark_or_find_pending_consent cid ns now items = (.error "consent_not_found", items) := by
  intro items
  induction items with
  | nil => intro _; rfl
  | cons item rest ih =>
    intro h
    by_cases hid : (item.record.consent_id == cid) = true
    · exfalso
      simp [findConsent, List.find?, hid] at h
    · rw [Bool.not_eq_true] at hid
      have h' : findConsent rest cid = none := by
        simpa [findConsent, List.find?, hid] using h
      simp [mark_or_find_pending_consent, hid, ih h']

/-- A record no longer `pending` fails with `consent_not_pending:<status>` at
any time (in particular even past its expiry), store untouched. -/
lemma mark_not_pending (cid ns : String) (now : Nat) :
    ∀ (items : List PendingConsentState) (item : PendingConsentState),
      findConsent items cid = some item → item.record.status ≠ "pending" →
      mark_or_find_pending_consent cid ns now items =
        (.error ("consent_not_pending:" ++ item.record.status), items) := by
  intro items
  induction items with
  | nil => intro item h; cases h
  | cons hd rest ih =>
    intro item h hstat
    by_cases hid : (hd.record.consent_id == cid) = true
    · have hhd : hd = item := by
        simpa [findConsent, List.find?, hid] using h
      subst hhd
      simp [mark_or_find_pending_consent, hid, hstat]
    · rw [Bool.not_eq_true] at hid
      have h' : findConsent rest cid = some item := by
        simpa [findConsent, List.find?, hid] using h
      simp [mark_or_find_pending_consent, hid, ih item h' hstat]

/-- A `pending` record past a positive expiry fails with `consent_expired` and
is marked `expired` in the store. -/
lemma mark_expired (cid ns : String) (now : Nat) :
    ∀ (items : List PendingConsentState) (item : PendingConsentState),
      findConsent items cid = some item → item.record.status = "pending" →
      0 < item.record.expires_at_unix_seconds → item.record.expires_at_unix_seconds < now →
      mark_or_find_pending_consent cid ns now items =
        (.error "consent_expired",
          updateFirst (fun it => it.record.consent_id == cid) (setConsentStatus "expired")
            items) := by
  intro items
  induction items with
  | nil => intro item h; cases h
  | cons hd rest ih =>
    intro item h hstat hpos hlt
    by_cases hid : (hd.record.consent_id == cid) = true
    · have hhd : hd = item := by
        simpa [findConsent, List.find?, hid] using h
      subst hhd
      simp [mark_or_find_pending_consent, hid, hstat, hpos, hlt, updateFirst,
        setConsentStatus]
    · rw [Bool.not_eq_true] at hid
      have h' : findConsent rest cid = some item := by
        simpa [findConsent, List.find?, hid] using h
      simp [mark_or_find_pending_consent, hid, ih item h' hstat hpos hlt, updateFirst]

/-- A fresh `pending` record is marked `new_status` and returned. -/
lemma mark_success (cid ns : String) (now : Nat) :
    ∀ (items : List PendingConsentState) (item : PendingConsentState),
      findConsent items cid = some item → item.record.status = "pending" →
      ¬ (0 < item.record.expires_at_unix_seconds ∧
          item.record.expires_at_unix_seconds < now) →
      mark_or_find_pending_consent cid ns now items =
        (.ok (setConsentStatus ns item),
          updateFirst (fun it => it.record.consent_id == cid) (setConsentStatus ns) items) := by
  intro items
  induction items with
  | nil => intro item h; cases h
  | cons hd rest ih =>
    intro item h hstat hfresh
    by_cases hid : (hd.record.consent_id == cid) = true
    · have hhd : hd = item := by
        simpa [findConsent, List.find?, hid] using h
      subst hhd
      simp [mark_or_find_pending_consent, hid, hstat, hfresh, updateFirst, setConsentStatus]
    · rw [Bool.not_eq_true] at hid
      have h' : findConsent rest cid = some item := by
        simpa [findConsent, List.find?, hid] using h
      simp [mark_or_find_pending_consent, hid, ih item h' hstat hfresh, updateFirst]

/-- Resolving one id never disturbs how another id is stored. -/
lemma mark_preserves_other (other cid ns : String) (now : Nat) (hne : (other == cid) = false) :
    ∀ (items : List PendingConsentState),
      findConsent (mark_or_find_pending_consent other ns now items).2 cid =
        findConsent items cid := by
  intro items
  induction items with
  | nil => rfl
  | cons hd rest ih =>
    by_cases hid : (hd.record.consent_id == other) = true
    · have hhdcid : (hd.record.consent_id == cid) = false := by
        have h1 : hd.record.consent_id = other := eq_of_beq hid
        subst h1
        exact hne
      simp only [mark_or_find_pending_consent, hid, if_true]
      split
      · simp [findConsent, List.find?, hhdcid]
      · split
        · simp [findConsent, List.find?, hhdcid, setConsentStatus]
        · simp [findConsent, List.find?, hhdcid, setConsentStatus]
    · rw [Bool.not_eq_true] at hid
      by_cases hcid : (hd.record.consent_id == cid) = true
      · simp [mark_or_find_pending_consent, hid, findConsent, List.find?, hcid]
      · rw [Bool.not_eq_true] at hcid
        simp only [mark_or_find_pending_consent, hid, Bool.false_eq_true, if_false]
        simpa [findConsent, List.find?, hcid] using ih

/-- A record already stored stays findable (unchanged) after appends. -/
lemma findConsent_append (items extra : List PendingConsentState) (cid : String)
    (item : PendingConsentState) (h : findConsent items cid = some item) :
    findConsent (items ++ extra) cid = some item := by
  simp [findConsent, List.find?_append]
  simp [findConsent] at h
  simp [h]

/-- A stored status is a find over the store. -/
lemma consentStatus_eq_some {items : List PendingConsentState} {cid s : String} :
    consentStatus items cid = some s ↔
      ∃ item, findConsent items cid = some item ∧ item.record.status = s := by
  unfold consentStatus
  cases hfind : findConsent items cid with
  | none => simp
  | some item => simp

/-- Any single later operation preserves a terminal status. -/
lemma applyConsentOp_preserves_terminal (cid s : String) (hs : s ≠ "pending")
    (items : List PendingConsentState) (op : ConsentOp)
    (h : consentStatus items cid = some s) :
    consentStatus (applyConsentOp items op) cid = some s := by
  cases op with
  | create it =>
    rw [consentStatus_eq_some] at h
    obtain ⟨item, hfind, hstat⟩ := h
    simp [applyConsentOp, consentStatus, findConsent_append items [it] cid item hfind, hstat]
  | resolve other ns now =>
    by_cases hoc : (other == cid) = true
    · have : other = cid := eq_of_beq hoc
      subst this
      rw [consentStatus_eq_some] at h
      obtain ⟨item, hfind, hstat⟩ := h
      have hne : item.record.status ≠ "pending" := by rw [hstat]; exact hs
      simp [applyConsentOp, mark_not_pending other ns now items item hfind hne,
        consentStatus, hfind, hstat]
    · rw [Bool.not_eq_true] at hoc
      simpa [applyConsentOp, consentStatus, mark_preserves_other other cid ns now hoc items]
        using h

/-- Any sequence of later operations preserves a terminal status. -/
lemma applyConsentOps_preserves_terminal (cid s : String) (hs : s ≠ "pending") :
    ∀ (ops : List ConsentOp) (items : List PendingConsentState),
      consentStatus items cid = some s →
      consentStatus (applyConsentOps items ops) cid = some s := by
  intro ops
  induction ops with
  | nil => intro items h; simpa [applyConsentOps] using h
  | cons op rest ih =>
    intro items h
    simp only [applyConsentOps, List.foldl_cons]
    exact ih _ (applyConsentOp_preserves_terminal cid s hs items op h)

/-- A successful resolution leaves the id stored under the new status. -/
lemma mark_ok_status (cid ns : String) (now : Nat) :
    ∀ (items items' : List PendingConsentState) (marked : PendingConsentState),
      mark_or_find_pending_consent cid ns now items = (.ok marked, items') →
      consentStatus items' cid = some ns := by
  intro items
  induction items with
  | nil =>
    intro items' marked h
    cases h
  | cons hd rest ih =>
    intro items' marked h
    by_cases hid : (hd.record.consent_id == cid) = true
    · simp only [mark_or_find_pending_consent, hid, if_true] at h
      split at h
      · cases h
      · split at h
        · cases h
        · injection h with h1 h2
          subst h2
          simp [consentStatus, findConsent, List.find?, hid, setConsentStatus]
    · rw [Bool.not_eq_true] at hid
      rcases hrest : mark_or_find_pending_consent cid ns now rest with ⟨r, rest'⟩
      simp only [mark_or_find_pending_consent, hid, Bool.false_eq_true, if_false, hrest] at h
      injection h with h1 h2
      subst h2
      cases r with
      | error e => cases h1
      | ok pending =>
        injection h1 with h1
        subst h1
        simpa [consentStatus, findConsent, List.find?, hid] using
          ih rest' pending (by rw [hrest])

/-- `chat_approve` forwards a resolution error together with the store as the
resolution left it on disk. -/
lemma chat_approve_error (provider : ProviderFn) (backend : BackendFn) (policy : Policy)
    (registry : ToolRegistry) (items s : List PendingConsentState) (tok : String)
    (now ac sc : Nat) (e : String)
    (h : mark_or_find_pending_consent tok "approved" now items = (.error e, s)) :
    chat_approve provider backend policy registry items tok now ac sc = (.error e, s) := by
  simp [chat_approve, h]

/-- `chat_deny` forwards a resolution error likewise. -/
lemma chat_deny_error (items s : List PendingConsentState) (tok : String) (now sc : Nat)
    (e : String)
    (h : mark_or_find_pending_consent tok "denied" now items = (.error e, s)) :
    chat_deny items tok now sc = (.error e, s) := by
  simp [chat_deny, h]

/-- `chat_approve` on a successful resolution replays the orchestrator against
the bound request with `user_confirmed = true` and stamps the response. -/
lemma chat_approve_ok (provider : ProviderFn) (backend : BackendFn) (policy : Policy)
    (registry : ToolRegistry) (items s : List PendingConsentState) (tok : String)
    (now ac sc : Nat) (pending : PendingConsentState)
    (h : mark_or_find_pending_consent tok "approved" now items = (.ok pending, s)) :
    chat_approve provider backend policy registry items tok now ac sc =
      (.ok { (run_with_confirmation provider backend policy registry ac now
          pending.chat_request.messages pending.chat_request.provider_config
          pending.chat_request.mode true).response with
        audit_id := next_synthetic_audit_id sc,
        session_id := pending.record.session_id,
        execution_state := "completed",
        consent_token := none,
        consent_request := none }, s) := by
  simp [chat_approve, h]

/-- `chat_deny` on a successful resolution synthesizes the denial response. -/
lemma chat_deny_ok (items s : List PendingConsentState) (tok : String) (now sc : Nat)
    (pending : PendingConsentState)
    (h : mark_or_find_pending_consent tok "denied" now items = (.ok pending, s)) :
    chat_deny items tok now sc = (.ok (response_for_denial pending sc), s) := by
  simp [chat_deny, h]

/-- A successful `chat_approve` comes from a successful resolution. -/
lemma chat_approve_ok_inv (provider : ProviderFn) (backend : BackendFn) (policy : Policy)
    (registry : ToolRegistry) (items items' : List PendingConsentState) (tok : String)
    (now ac sc : Nat) (resp : ChatResponse)
    (h : chat_approve provider backend policy registry items tok now ac sc =
      (.ok resp, items')) :
    ∃ pending, mark_or_find_pending_consent tok "approved" now items = (.ok pending, items') := by
  rcases hm : mark_or_find_pending_consent tok "approved" now items with ⟨r, s⟩
  cases r with
  | error e =>
    rw [chat_approve_error provider backend policy registry items s tok now ac sc e hm] at h
    injection h with h1 h2
    cases h1
  | ok pending =>
    rw [chat_approve_ok provider backend policy registry items s tok now ac sc pending hm]
      at h
    injection h with h1 h2
    subst h2
    exact ⟨pending, rfl⟩

/-- A successful `chat_deny` comes from a successful resolution. -/
lemma chat_deny_ok_inv (items items' : List PendingConsentState) (tok : String) (now sc : Nat)
    (resp : ChatResponse)
    (h : chat_deny items tok now sc = (.ok resp, items')) :
    ∃ pending, mark_or_find_pending_consent tok "denied" now items = (.ok pending, items') := by
  rcases hm : mark_or_find_pending_consent tok "denied" now items with ⟨r, s⟩
  cases r with
  | error e =>
    rw [chat_deny_error items s tok now sc e hm] at h
    injection h with h1 h2
    cases h1
  | ok pending =>
    rw [chat_deny_ok items s tok now sc pending hm] at h
    injection h with h1 h2
    subst h2
    exact ⟨pending, rfl⟩

/-- C10.  Consent resolution error precedence: an unknown id yields
`consent_not_found`; a record whose status is not `pending` yields
`consent_not_pending:<status>` at every `now`, in particular also past its
`expires_at` (expiry is checked only for records still pending); and a pending
record with `expires_at_unix_seconds = 0` is never treated as expired — it
resolves successfully at any time. -/
theorem consent_error_precedence (items : List PendingConsentState) (tok : String) :
    (∀ (ns : String) (now : Nat), findConsent items tok = none →
      mark_or_find_pending_consent tok ns now items = (.error "consent_not_found", items)) ∧
    (∀ (item : PendingConsentState) (ns : String) (now : Nat),
      findConsent items tok = some item → item.record.status ≠ "pending" →
      mark_or_find_pending_consent tok ns now items =
        (.error ("consent_not_pending:" ++ item.record.status), items)) ∧
    (∀ (item : PendingConsentState) (ns : String) (now : Nat),
      findConsent items tok = some item → item.record.status = "pending" →
      item.record.expires_at_unix_seconds = 0 →
      mark_or_find_pending_consent tok ns now items =
        (.ok (setConsentStatus ns item),
          updateFirst (fun it => it.record.consent_id == tok) (setConsentStatus ns) items)) ∧
    (∀ (provider : ProviderFn) (backend : BackendFn) (policy : Policy)
        (registry : ToolRegistry) (now ac sc : Nat), findConsent items tok = none →
      (chat_approve provider backend policy registry items tok now ac sc).1 =
        .error "consent_not_found" ∧
      (chat_deny items tok now sc).1 = .error "consent_not_found") := by
  refine ⟨?_, ?_, ?_, ?_⟩
  · intro ns now h
    exact mark_not_found tok ns now items h
  · intro item ns now h hs
    exact mark_not_pending tok ns now items item h hs
  · intro item ns now h hs hz
    refine mark_success tok ns now items item h hs ?_
    rw [hz]
    simp
  · intro provider backend policy registry now ac sc h
    constructor
    · rw [chat_approve_error provider backend policy registry items items tok now ac sc
        "consent_not_found" (mark_not_found tok "approved" now items h)]
    · rw [chat_deny_error items items tok now sc "consent_not_found"
        (mark_not_found tok "denied" now items h)]

/-- A concrete bound request used by consent witnesses. -/
def wPendingReq : ChatRequest :=
  { session_id := none,
    messages := [{ role := "user", content := "tool:activate Browser" }],
    provider_config := witnessCfg,
    mode := ChatMode.RequireConfirmation }

/-- A concrete persisted consent used by witnesses. -/
def wPendingRecord (cid : String) (expires : Nat) (status : String) : PendingConsentState :=
  { record :=
      { consent_id := cid, session_id := none, requested_at_unix_seconds := 5,
        expires_at_unix_seconds := expires, tool_name := "desktop.app.activate",
        capability_tier := "SystemActions", status := status,
        rationale := "explicit consent required", arguments_preview := none,
        request_fingerprint := "req-0000000000000000" },
    chat_request := wPendingReq }

/-- Store with one terminal (approved, already expired) and one non-expiring
pending record. -/
def wStorePrecedence : List PendingConsentState :=
  [wPendingRecord "consent-000001" 5 "approved", wPendingRecord "consent-000002" 0 "pending"]

/-- Witness for C10 at concrete inputs: in a store holding an `approved`
record whose expiry (5) is far in the past of `now = 100`, resolution still
fails `consent_not_pending:approved` (not `consent_expired`); a pending record
with expiry 0 resolves successfully at the arbitrarily late `now = 999999`;
and an unknown id fails `consent_not_found`. -/
theorem consent_error_precedence_witness :
    mark_or_find_pending_consent "consent-000001" "approved" 100 wStorePrecedence =
      (.error "consent_not_pending:approved", wStorePrecedence) ∧
    mark_or_find_pending_consent "consent-000002" "approved" 999999 wStorePrecedence =
      (.ok (setConsentStatus "approved" (wPendingRecord "consent-000002" 0 "pending")),
        updateFirst (fun it => it.record.consent_id == "consent-000002")
          (setConsentStatus "approved") wStorePrecedence) ∧
    mark_or_find_pending_consent "consent-999999" "approved" 100 wStorePrecedence =
      (.error "consent_not_found", wStorePrecedence) := by
  have h1 := consent_error_precedence wStorePrecedence "consent-000001"
  have h2 := consent_error_precedence wStorePrecedence "consent-000002"
  have h9 := consent_error_precedence wStorePrecedence "consent-999999"
  refine ⟨?_, ?_, ?_⟩
  · exact h1.2.1 (wPendingRecord "consent-000001" 5 "approved") "approved" 100 (by decide)
      (by decide)
  · exact h2.2.2.1 (wPendingRecord "consent-000002" 0 "pending") "approved" 999999
      (by decide) (by decide) (by decide)
  · exact h9.1 "approved" 100 (by decide)

/-- The consent state `attach_or_create_consent` persists for the first
pending event (named so the C5 statement can exhibit it). -/
def mintedConsent (request : ChatRequest) (response : ChatResponse) (now cc : Nat)
    (first : ActionEvent) : PendingConsentState :=
  { record :=
      { consent_id := next_consent_id cc,
        session_id := request.session_id,
        requested_at_unix_seconds := now,
        expires_at_unix_seconds := u64_saturating_add now CONSENT_TTL_SECS,
        tool_name := first.tool_name,
        capability_tier := first.capability_tier,
        status := "pending",
        rationale := first.reason.getD "explicit consent required",
        arguments_preview := first.arguments_preview,
        request_fingerprint := response.request_fingerprint },
    chat_request := request }

/-- C5.  Lazy consent TTL: every consent minted by the consent-attach step is
persisted `pending` with `requested_at = now` and
`expires_at = now.saturating_add(CONSENT_TTL_SECS)` — i.e. `now + 300`
whenever that does not overflow `u64`; no timer exists in the model — expiry
is only a comparison against the `now` passed to each operation: a pending
record past a positive expiry fails approve/deny with `consent_expired` while
being marked `expired` on disk, and `consent.list` observes it with status
`expired`. -/
theorem consent_ttl_lazy :
    (∀ (request : ChatRequest) (response : ChatResponse) (items : List PendingConsentState)
        (now cc : Nat) (first : ActionEvent) (restev : List ActionEvent),
      response.proposed_actions.filter (fun evt => evt.status == "consent_required") =
        first :: restev →
      ∃ st, (attach_or_create_consent request response items now cc).2 = items ++ [st] ∧
        st.record.requested_at_unix_seconds = now ∧
        st.record.expires_at_unix_seconds = u64_saturating_add now CONSENT_TTL_SECS ∧
        st.record.status = "pending" ∧
        (now + CONSENT_TTL_SECS ≤ U64_MAX →
          st.record.expires_at_unix_seconds = now + CONSENT_TTL_SECS)) ∧
    (∀ (items : List PendingConsentState) (item : PendingConsentState) (tok : String)
        (now : Nat) (provider : ProviderFn) (backend : BackendFn) (policy : Policy)
        (registry : ToolRegistry) (ac sc : Nat),
      findConsent items tok = some item → item.record.status = "pending" →
      0 < item.record.expires_at_unix_seconds → item.record.expires_at_unix_seconds < now →
      chat_approve provider backend policy registry items tok now ac sc =
        (.error "consent_expired",
          updateFirst (fun it => it.record.consent_id == tok) (setConsentStatus "expired")
            items) ∧
      chat_deny items tok now sc =
        (.error "consent_expired",
          updateFirst (fun it => it.record.consent_id == tok) (setConsentStatus "expired")
            items) ∧
      { item.record with status := "expired" } ∈ consent_list none none now items) := by
  constructor
  · intro request response items now cc first restev hfe
    refine ⟨mintedConsent request response now cc first, ?_, rfl, rfl, rfl, ?_⟩
    · simp [attach_or_create_consent, hfe, mintedConsent]
    · intro hle
      simp [mintedConsent, u64_saturating_add, hle]
  · intro items item tok now provider backend policy registry ac sc hfind hstat hpos hlt
    refine ⟨?_, ?_, ?_⟩
    · exact chat_approve_error provider backend policy registry items _ tok now ac sc _
        (mark_expired tok "approved" now items item hfind hstat hpos hlt)
    · exact chat_deny_error items _ tok now sc _
        (mark_expired tok "denied" now items item hfind hstat hpos hlt)
    · have hmem : item ∈ items := by
        have h' : items.find? (fun it => it.record.consent_id == tok) = some item := hfind
        exact List.mem_of_find?_eq_some h'
      simp only [consent_list, List.mem_reverse, List.mem_mergeSort]
      refine List.mem_map.mpr ⟨item, hmem, ?_⟩
      rw [if_pos]
      exact ⟨by rw [hstat]; rfl, hpos, hlt⟩

/-- A concrete consent-gated proposed action for witnesses. -/
def wConsentEvent : ActionEvent :=
  { tool_name := "desktop.app.activate", capability_tier := "SystemActions",
    status := "consent_required", reason := some "explicit consent required",
    arguments_preview := none, evidence_summary := none }

/-- A concrete awaiting-consent response for witnesses. -/
def wAwaitResponse : ChatResponse :=
  { final_text := "Confirmation required before executing requested tools.",
    audit_id := "audit-000001", request_fingerprint := "req-0000000000000000",
    execution_state := "", consent_token := none, session_id := none,
    consent_request := none, actions_executed := [], proposed_actions := [wConsentEvent],
    executed_action_events := [], action_events := [wConsentEvent] }

/-- Store with a single pending consent whose expiry (5) has passed. -/
def wStoreExpired : List PendingConsentState :=
  [wPendingRecord "consent-000001" 5 "pending"]

/-- Witness for C5 at concrete inputs: the consent minted at `now = 10` is
pending with `requested_at = 10` and `expires_at = 310`; denying the expired
consent at `now = 100` fails `consent_expired` and marks it expired on disk;
and `consent.list` at `now = 100` observes it as `expired`. -/
theorem consent_ttl_lazy_witness :
    (∃ st, (attach_or_create_consent wPendingReq wAwaitResponse [] 10 0).2 = [] ++ [st] ∧
      st.record.requested_at_unix_seconds = 10 ∧
      st.record.expires_at_unix_seconds = u64_saturating_add 10 CONSENT_TTL_SECS ∧
      st.record.status = "pending" ∧
      (10 + CONSENT_TTL_SECS ≤ U64_MAX →
        st.record.expires_at_unix_seconds = 10 + CONSENT_TTL_SECS)) ∧
    chat_deny wStoreExpired "consent-000001" 100 0 =
      (.error "consent_expired",
        updateFirst (fun it => it.record.consent_id == "consent-000001")
          (setConsentStatus "expired") wStoreExpired) ∧
    { (wPendingRecord "consent-000001" 5 "pending").record with status := "expired" } ∈
      consent_list none none 100 wStoreExpired := by
  have h := consent_ttl_lazy
  have hexp := h.2 wStoreExpired (wPendingRecord "consent-000001" 5 "pending")
    "consent-000001" 100 witnessProviderDone witnessBackend Policy.default
    witnessActivateRegistry 0 0 (by decide) (by decide) (by decide) (by decide)
  exact ⟨h.1 wPendingReq wAwaitResponse [] 10 0 wConsentEvent [] (by decide),
    hexp.2.1, hexp.2.2⟩

/-- C2.  Exact-request binding: the consent-attach step persists, alongside
the pending record, a deep copy of the originating `ChatRequest` (in the pure
model, the very request value), and a successful `chat_approve` re-runs the
orchestrator with exactly the stored snapshot's `messages`, `provider_config`
and `mode` — not any current service state — with `user_confirmed = true`,
returning that run's response restamped with `execution_state = "completed"`,
`consent_token = none` and `consent_request = none`. -/
theorem chat_approve_exact_request (provider : ProviderFn) (backend : BackendFn)
    (policy : Policy) (registry : ToolRegistry) (items : List PendingConsentState)
    (item : PendingConsentState) (tok : String) (now ac sc : Nat)
    (hfind : findConsent items tok = some item)
    (hpend : item.record.status = "pending")
    (hfresh : ¬ (0 < item.record.expires_at_unix_seconds ∧
        item.record.expires_at_unix_seconds < now)) :
    (∀ (params : ChatRequest) (response : ChatResponse) (store : List PendingConsentState)
        (t cc : Nat),
      (attach_or_create_consent params response store t cc).2 = store ∨
      ∃ rec, (attach_or_create_consent params response store t cc).2 =
        store ++ [{ record := rec, chat_request := params }]) ∧
    chat_approve provider backend policy registry items tok now ac sc =
      (.ok { (run_with_confirmation provider backend policy registry ac now
          item.chat_request.messages item.chat_request.provider_config
          item.chat_request.mode true).response with
        audit_id := next_synthetic_audit_id sc,
        session_id := item.record.session_id,
        execution_state := "completed",
        consent_token := none,
        consent_request := none },
       updateFirst (fun it => it.record.consent_id == tok) (setConsentStatus "approved")
         items) := by
  constructor
  · intro params response store t cc
    rcases hfe : response.proposed_actions.filter (fun evt => evt.status == "consent_required")
      with _ | ⟨first, restev⟩
    · left
      simp [attach_or_create_consent, hfe]
    · right
      refine ⟨(mintedConsent params response t cc first).record, ?_⟩
      simp [attach_or_create_consent, hfe, mintedConsent]
  · exact chat_approve_ok provider backend policy registry items _ tok now ac sc
      (setConsentStatus "approved" item)
      (mark_success tok "approved" now items item hfind hpend hfresh)

/-- Store with a single fresh pending consent (expiry 1000). -/
def wStoreFresh : List PendingConsentState :=
  [wPendingRecord "consent-000001" 1000 "pending"]

/-- Witness for C2 at concrete inputs: approving the fresh pending consent at
`now = 10` replays the stored snapshot with `user_confirmed = true` and marks
the record approved; the approved response has `execution_state = completed`
and carries no consent token or consent request. -/
theorem chat_approve_exact_request_witness :
    chat_approve witnessProviderDone witnessBackend Policy.default witnessActivateRegistry
        wStoreFresh "consent-000001" 10 0 0 =
      (.ok { (run_with_confirmation witnessProviderDone witnessBackend Policy.default
          witnessActivateRegistry 0 10 wPendingReq.messages wPendingReq.provider_config
          wPendingReq.mode true).response with
        audit_id := next_synthetic_audit_id 0,
        session_id := none,
        execution_state := "completed",
        consent_token := none,
        consent_request := none },
       updateFirst (fun it => it.record.consent_id == "consent-000001")
         (setConsentStatus "approved") wStoreFresh) := by
  have h := chat_approve_exact_request witnessProviderDone witnessBackend Policy.default
    witnessActivateRegistry wStoreFresh (wPendingRecord "consent-000001" 1000 "pending")
    "consent-000001" 10 0 0 (by decide) (by decide) (by decide)
  exact h.2

/-- C1.  Single-use consent tokens: after a successful `chat_approve`
(resp. `chat_deny`) of a consent id, the record is stored under the terminal
status `approved` (resp. `denied`) and stays there across every later
sequence of consent operations (further resolutions of any id, new consents
being minted); any later `chat_approve` or `chat_deny` of the same id fails
with `consent_not_pending:<terminal_status>` and leaves the store
untouched. -/
theorem consent_single_use (provider : ProviderFn) (backend : BackendFn) (policy : Policy)
    (registry : ToolRegistry) (items items' : List PendingConsentState)
    (tok terminal_status : String) (now ac sc : Nat)
    (h : (terminal_status = "approved" ∧ ∃ resp,
            chat_approve provider backend policy registry items tok now ac sc =
              (.ok resp, items')) ∨
         (terminal_status = "denied" ∧ ∃ resp,
            chat_deny items tok now sc = (.ok resp, items'))) :
    ∀ ops : List ConsentOp,
      consentStatus (applyConsentOps items' ops) tok = some terminal_status ∧
      ∀ (provider2 : ProviderFn) (backend2 : BackendFn) (policy2 : Policy)
          (registry2 : ToolRegistry) (now2 ac2 sc2 : Nat),
        chat_approve provider2 backend2 policy2 registry2 (applyConsentOps items' ops) tok
            now2 ac2 sc2 =
          (.error ("consent_not_pending:" ++ terminal_status), applyConsentOps items' ops) ∧
        chat_deny (applyConsentOps items' ops) tok now2 sc2 =
          (.error ("consent_not_pending:" ++ terminal_status), applyConsentOps items' ops) := by
  have hstat : consentStatus items' tok = some terminal_status := by
    rcases h with ⟨hts, resp, happ⟩ | ⟨hts, resp, hden⟩
    · obtain ⟨pending, hm⟩ := chat_approve_ok_inv provider backend policy registry items
        items' tok now ac sc resp happ
      subst hts
      exact mark_ok_status tok "approved" now items items' pending hm
    · obtain ⟨pending, hm⟩ := chat_deny_ok_inv items items' tok now sc resp hden
      subst hts
      exact mark_ok_status tok "denied" now items items' pending hm
  have hterm : terminal_status ≠ "pending" := by
    rcases h with ⟨hts, -⟩ | ⟨hts, -⟩ <;> subst hts <;> decide
  intro ops
  have hst := applyConsentOps_preserves_terminal tok terminal_status hterm ops items' hstat
  refine ⟨hst, ?_⟩
  intro provider2 backend2 policy2 registry2 now2 ac2 sc2
  obtain ⟨item2, hfind2, hstat2⟩ := consentStatus_eq_some.mp hst
  have hnp : item2.record.status ≠ "pending" := by
    rw [hstat2]
    exact hterm
  constructor
  · rw [chat_approve_error provider2 backend2 policy2 registry2 _ _ tok now2 ac2 sc2 _
      (mark_not_pending tok "approved" now2 _ item2 hfind2 hnp), hstat2]
  · rw [chat_deny_error _ _ tok now2 sc2 _
      (mark_not_pending tok "denied" now2 _ item2 hfind2 hnp), hstat2]

/-- Store with a single never-expiring pending consent. -/
def wStore1 : List PendingConsentState :=
  [wPendingRecord "consent-000001" 0 "pending"]

/-- Witness for C1 at concrete inputs: approving the never-expiring pending
consent succeeds once; after that (with no further operations in between,
`ops = []`), both a replayed approve and a deny of the same id fail with
`consent_not_pending:approved`, and the record is stored as `approved`. -/
theorem consent_single_use_witness :
    consentStatus
        (applyConsentOps (chat_approve witnessProviderDone witnessBackend Policy.default
          witnessActivateRegistry wStore1 "consent-000001" 10 0 0).2 []) "consent-000001" =
      some "approved" ∧
    chat_approve witnessProviderDone witnessBackend Policy.default witnessActivateRegistry
        (applyConsentOps (chat_approve witnessProviderDone witnessBackend Policy.default
          witnessActivateRegistry wStore1 "consent-000001" 10 0 0).2 []) "consent-000001"
        99 1 1 =
      (.error "consent_not_pending:approved",
        applyConsentOps (chat_approve witnessProviderDone witnessBackend Policy.default
          witnessActivateRegistry wStore1 "consent-000001" 10 0 0).2 []) ∧
    chat_deny
        (applyConsentOps (chat_approve witnessProviderDone witnessBackend Policy.default
          witnessActivateRegistry wStore1 "consent-000001" 10 0 0).2 []) "consent-000001"
        99 1 =
      (.error "consent_not_pending:approved",
        applyConsentOps (chat_approve witnessProviderDone witnessBackend Policy.default
          witnessActivateRegistry wStore1 "consent-000001" 10 0 0).2 []) := by
  have h := consent_single_use witnessProviderDone witnessBackend Policy.default
    witnessActivateRegistry wStore1
    (chat_approve witnessProviderDone witnessBackend Policy.default witnessActivateRegistry
      wStore1 "consent-000001" 10 0 0).2
    "consent-000001" "approved" 10 0 0 (Or.inl ⟨rfl, ⟨_, rfl⟩⟩) []
  exact ⟨h.1, (h.2 witnessProviderDone witnessBackend Policy.default witnessActivateRegistry
    99 1 1).1, (h.2 witnessProviderDone witnessBackend Policy.default witnessActivateRegistry
    99 1 1).2⟩
